import Mathlib

/-!
# deploystack: Cloud Functions wrapper (`cloudfunctions.go`)

A shallow embedding of the five Cloud Functions helpers of the `deploystack`
package and of the lazily created package-level client they share.

* Go `string` is `String`; a Go `error` is represented by its text
  (`err.Error()`), so `fmt.Errorf("ctx: %s", err)` is `"ctx: " ++ err`.
* A Go value that may be `nil` (pointer, slice, error) is an `Option`.
* The package-level variable `cloudfunctionsService` and the state of the
  remote side are threaded explicitly through every function.
* The collaborators that live outside the file (`EnableService`,
  `cloudfunctions.NewService` and the calls on the generated client) are
  fields of an environment `Env`; nothing is assumed about what they return.
* Every call to a collaborator is recorded, with its arguments and its
  result, in a ghost trace (newest event first).
-/

namespace Deploystack

/-- The text of a Go `error`. -/
abbrev GoError := String

/-- The client `*cloudfunctions.Service`: `id` stands for the identity of the
object built by `NewService`, `UserAgent` is its exported field. -/
structure Service where
  id : Nat
  UserAgent : String
deriving DecidableEq, Repr

/-- One entry of `ListLocationsResponse.Locations`. -/
structure Location where
  LocationId : String
  Name : String
  DisplayName : String
deriving DecidableEq, Repr

/-- The reply of `Projects.Locations.List(..).Do()`. -/
structure ListLocationsResponse where
  Locations : List Location
  NextPageToken : String
deriving DecidableEq, Repr

/-- The descriptor `cloudfunctions.CloudFunction` (a selection of its fields). -/
structure CloudFunction where
  Name : String
  Description : String
  EntryPoint : String
  Runtime : String
  SourceUploadUrl : String
  AvailableMemoryMb : Int
deriving DecidableEq, Repr

/-- The long-running `cloudfunctions.Operation` returned by create and delete. -/
structure Operation where
  Name : String
  Done : Bool
deriving DecidableEq, Repr

/-- The request `cloudfunctions.GenerateUploadUrlRequest`; `{}` in Go is the
value with every field at its zero value. -/
structure GenerateUploadUrlRequest where
  KmsKeyName : String
deriving DecidableEq, Repr

/-- The reply `cloudfunctions.GenerateUploadUrlResponse`. -/
structure GenerateUploadUrlResponse where
  UploadUrl : String
deriving DecidableEq, Repr

/-- A Go result pair `(value, err)` of which exactly one component is set:
`ok v` is `(v, nil)` and `fail err` is `(nil, err)`. -/
inductive Result (α : Type) where
  | ok (value : α)
  | fail (err : GoError)
deriving DecidableEq, Repr

/-- The collaborators of `cloudfunctions.go`, over a remote state `σ`.
`defaultUserAgent` is the package constant of that name; `NewService` stands
for `cloudfunctions.NewService(ctx, opts)`. -/
structure Env (σ : Type) where
  defaultUserAgent : String
  EnableService : String → String → σ → Option GoError × σ
  NewService : σ → Result Service × σ
  LocationsList : Service → String → σ → Result ListLocationsResponse × σ
  FunctionsCreate : Service → String → CloudFunction → σ → Result Operation × σ
  FunctionsDelete : Service → String → σ → Result Operation × σ
  FunctionsGet : Service → String → σ → Result CloudFunction × σ
  FunctionsGenerateUploadUrl :
    Service → String → GenerateUploadUrlRequest → σ → Result GenerateUploadUrlResponse × σ

/-- One recorded call to a collaborator, with its arguments and its result. -/
inductive Event where
  | enableService (project api : String) (res : Option GoError)
  | newService (res : Result Service)
  | locationsList (svc : Service) (parent : String) (res : Result ListLocationsResponse)
  | functionsCreate (svc : Service) (location : String) (f : CloudFunction)
      (res : Result Operation)
  | functionsDelete (svc : Service) (name : String) (res : Result Operation)
  | functionsGet (svc : Service) (name : String) (res : Result CloudFunction)
  | functionsGenerateUploadUrl (svc : Service) (location : String)
      (req : GenerateUploadUrlRequest) (res : Result GenerateUploadUrlResponse)
deriving DecidableEq, Repr

/-- The state of the package and of its surroundings: the package-level variable
`cloudfunctionsService`, the remote side, and the ghost trace (newest first). -/
structure State (σ : Type) where
  cloudfunctionsService : Option Service
  remote : σ
  trace : List Event

variable {σ : Type}

/-- The call `EnableService(project, api)`, recorded in the trace. -/
def callEnableService (E : Env σ) (project api : String) (st : State σ) :
    Option GoError × State σ :=
  let r := E.EnableService project api st.remote
  (r.1, { st with remote := r.2, trace := Event.enableService project api r.1 :: st.trace })

/-- The call `cloudfunctions.NewService(ctx, opts)`, recorded in the trace. -/
def callNewService (E : Env σ) (st : State σ) : Result Service × State σ :=
  let r := E.NewService st.remote
  (r.1, { st with remote := r.2, trace := Event.newService r.1 :: st.trace })

/-- The call `svc.Projects.Locations.List(parent).Do()`, recorded in the trace. -/
def callLocationsList (E : Env σ) (svc : Service) (parent : String) (st : State σ) :
    Result ListLocationsResponse × State σ :=
  let r := E.LocationsList svc parent st.remote
  (r.1, { st with remote := r.2, trace := Event.locationsList svc parent r.1 :: st.trace })

/-- The call `svc.Projects.Locations.Functions.Create(location, &f).Do()`. -/
def callFunctionsCreate (E : Env σ) (svc : Service) (location : String) (f : CloudFunction)
    (st : State σ) : Result Operation × State σ :=
  let r := E.FunctionsCreate svc location f st.remote
  (r.1, { st with remote := r.2,
                  trace := Event.functionsCreate svc location f r.1 :: st.trace })

/-- The call `svc.Projects.Locations.Functions.Delete(name).Do()`. -/
def callFunctionsDelete (E : Env σ) (svc : Service) (name : String) (st : State σ) :
    Result Operation × State σ :=
  let r := E.FunctionsDelete svc name st.remote
  (r.1, { st with remote := r.2, trace := Event.functionsDelete svc name r.1 :: st.trace })

/-- The call `svc.Projects.Locations.Functions.Get(name).Do()`. -/
def callFunctionsGet (E : Env σ) (svc : Service) (name : String) (st : State σ) :
    Result CloudFunction × State σ :=
  let r := E.FunctionsGet svc name st.remote
  (r.1, { st with remote := r.2, trace := Event.functionsGet svc name r.1 :: st.trace })

/-- The call `svc.Projects.Locations.Functions.GenerateUploadUrl(location, req).Do()`. -/
def callFunctionsGenerateUploadUrl (E : Env σ) (svc : Service) (location : String)
    (req : GenerateUploadUrlRequest) (st : State σ) :
    Result GenerateUploadUrlResponse × State σ :=
  let r := E.FunctionsGenerateUploadUrl svc location req st.remote
  (r.1, { st with remote := r.2,
                  trace := Event.functionsGenerateUploadUrl svc location req r.1 :: st.trace })

/-- The comparison `a < b` of two Go strings, on their characters: the first
position where they differ decides, and a proper prefix is smaller. (Go
compares the UTF-8 bytes, which orders valid strings as their code points do.) -/
def lessChars : List Char → List Char → Bool
  | _, [] => false
  | [], _ :: _ => true
  | a :: as, b :: bs =>
    if a.toNat < b.toNat then true
    else if b.toNat < a.toNat then false
    else lessChars as bs

/-- The Go comparison `a < b` on strings. -/
def stringLess (a b : String) : Bool :=
  lessChars a.data b.data

/-- `sort.Strings`: sorts a slice of strings in increasing order, that is with
`Less(i, j) = x[i] < x[j]`. The library routine is represented by an
insertion sort on the same comparison; two strings that compare equal are
the same string, so the sorted slice does not depend on the algorithm. -/
def sortStrings (xs : List String) : List String :=
  xs.insertionSort (fun a b => stringLess b a = false)

/-- `getCloudFunctionsService`: returns the cached client when there is one;
otherwise enables the API, builds a client, stores it in the package-level
`cloudfunctionsService` and sets its user agent (the stored pointer and the
returned one are the same object, so the stored client carries the user
agent too). -/
def getCloudFunctionsService (E : Env σ) (project : String) (st : State σ) :
    Result Service × State σ :=
  match st.cloudfunctionsService with
  | some cached => (Result.ok cached, st)
  | none =>
    match callEnableService E project "cloudfunctions.googleapis.com" st with
    | (some err, st1) =>
      (Result.fail ("error activating service for polling: " ++ err), st1)
    | (none, st1) =>
      match callNewService E st1 with
      | (Result.fail err, st2) => (Result.fail err, st2)
      | (Result.ok svc, st2) =>
        let svc1 : Service := { svc with UserAgent := E.defaultUserAgent }
        (Result.ok svc1, { st2 with cloudfunctionsService := some svc1 })

/-- `RegionsFunctionsList`: the sorted region identifiers of Cloud Functions.
The first component is the returned slice (`none` would be a nil slice),
the second the returned error (`none` is nil). -/
def RegionsFunctionsList (E : Env σ) (project : String) (st : State σ) :
    (Option (List String) × Option GoError) × State σ :=
  let resp : List String := []
  match callEnableService E project "cloudfunctions.googleapis.com" st with
  | (some err, st1) =>
    ((some resp, some ("error activating service for polling: " ++ err)), st1)
  | (none, st1) =>
    match getCloudFunctionsService E project st1 with
    | (Result.fail err, st2) => ((some resp, some err), st2)
    | (Result.ok svc, st2) =>
      match callLocationsList E svc ("projects/" ++ project) st2 with
      | (Result.fail err, st3) => ((some resp, some err), st3)
      | (Result.ok results, st3) =>
        ((some (sortStrings (results.Locations.foldl (fun acc v => acc ++ [v.LocationId]) resp)),
          none), st3)

/-- `DeployFunction`: creates the function `f` under the location of
`project` and `region`; returns the error (`none` is nil). -/
def DeployFunction (E : Env σ) (project region : String) (f : CloudFunction) (st : State σ) :
    Option GoError × State σ :=
  match getCloudFunctionsService E project st with
  | (Result.fail err, st1) => (some err, st1)
  | (Result.ok svc, st1) =>
    let location := "projects/" ++ project ++ "/locations/" ++ region
    match callFunctionsCreate E svc location f st1 with
    | (Result.fail err, st2) => (some ("could not create function: " ++ err), st2)
    | (Result.ok _, st2) => (none, st2)

/-- `DeleteFunction`: deletes the function `name`; returns the error. -/
def DeleteFunction (E : Env σ) (project region name : String) (st : State σ) :
    Option GoError × State σ :=
  match getCloudFunctionsService E project st with
  | (Result.fail err, st1) => (some err, st1)
  | (Result.ok svc, st1) =>
    let fname := "projects/" ++ project ++ "/locations/" ++ region ++ "/functions/" ++ name
    match callFunctionsDelete E svc fname st1 with
    | (Result.fail err, st2) => (some ("could not create function: " ++ err), st2)
    | (Result.ok _, st2) => (none, st2)

/-- `GetFunction`: the descriptor of the function `name` (`none` is a nil
pointer) and the error. -/
def GetFunction (E : Env σ) (project region name : String) (st : State σ) :
    (Option CloudFunction × Option GoError) × State σ :=
  match getCloudFunctionsService E project st with
  | (Result.fail err, st1) => ((none, some err), st1)
  | (Result.ok svc, st1) =>
    let fname := "projects/" ++ project ++ "/locations/" ++ region ++ "/functions/" ++ name
    match callFunctionsGet E svc fname st1 with
    | (Result.fail err, st2) => ((none, some ("could not get function: " ++ err)), st2)
    | (Result.ok result, st2) => ((some result, none), st2)

/-- `GenerateFunctionSignedURL`: the upload URL for the location of `project`
and `region`, and the error. -/
def GenerateFunctionSignedURL (E : Env σ) (project region : String) (st : State σ) :
    (String × Option GoError) × State σ :=
  let location := "projects/" ++ project ++ "/locations/" ++ region
  match getCloudFunctionsService E project st with
  | (Result.fail err, st1) => (("", some err), st1)
  | (Result.ok svc, st1) =>
    let req : GenerateUploadUrlRequest := { KmsKeyName := "" }
    match callFunctionsGenerateUploadUrl E svc location req st1 with
    | (Result.fail err, st2) => (("", some err), st2)
    | (Result.ok result, st2) => ((result.UploadUrl, none), st2)

/-! ## Observations on the trace -/

/-- For a call to `EnableService`: the project and the API it was given. -/
def Event.enableCall : Event → Option (String × String)
  | Event.enableService project api _ => some (project, api)
  | _ => none

/-- The calls to `EnableService` in a list of events, as (project, API). -/
def enableCalls (evs : List Event) : List (String × String) :=
  evs.filterMap Event.enableCall

/-- The number of calls to `EnableService` in a list of events. -/
def enableCount (evs : List Event) : Nat :=
  (enableCalls evs).length

/-- For a call on the client (list, create, delete, get, generate upload URL):
the client it was made on and the resource name it was given. -/
def Event.remoteCall : Event → Option (Service × String)
  | Event.enableService _ _ _ => none
  | Event.newService _ => none
  | Event.locationsList svc parent _ => some (svc, parent)
  | Event.functionsCreate svc location _ _ => some (svc, location)
  | Event.functionsDelete svc name _ => some (svc, name)
  | Event.functionsGet svc name _ => some (svc, name)
  | Event.functionsGenerateUploadUrl svc location _ _ => some (svc, location)

/-- The calls on the client in a list of events. -/
def remoteCalls (evs : List Event) : List (Service × String) :=
  evs.filterMap Event.remoteCall

/-- One call to one of the five operations, with its arguments. -/
inductive Op where
  | regionsFunctionsList (project : String)
  | deployFunction (project region : String) (f : CloudFunction)
  | deleteFunction (project region name : String)
  | getFunction (project region name : String)
  | generateFunctionSignedURL (project region : String)
deriving DecidableEq, Repr

/-- Whether the operation is `RegionsFunctionsList`. -/
def Op.isList : Op → Bool
  | Op.regionsFunctionsList _ => true
  | _ => false

/-- The state after a call to an operation (its results dropped). -/
def Op.run (E : Env σ) : Op → State σ → State σ
  | Op.regionsFunctionsList project, st => (RegionsFunctionsList E project st).2
  | Op.deployFunction project region f, st => (DeployFunction E project region f st).2
  | Op.deleteFunction project region name, st => (DeleteFunction E project region name st).2
  | Op.getFunction project region name, st => (GetFunction E project region name st).2
  | Op.generateFunctionSignedURL project region, st =>
    (GenerateFunctionSignedURL E project region st).2

/-- The steps of `RegionsFunctionsList` that can fail. -/
inductive Step where
  | activation
  | construction
  | listing
deriving DecidableEq, Repr

/-- The step that failed, read off the last recorded call (the head of the
trace): a failed `EnableService`, `NewService` or list call. -/
def failedStep : List Event → Option Step
  | Event.enableService _ _ (some _) :: _ => some Step.activation
  | Event.newService (Result.fail _) :: _ => some Step.construction
  | Event.locationsList _ _ (Result.fail _) :: _ => some Step.listing
  | _ => none

/-! ## Concrete environments used in the examples -/

/-- A scripted environment without remote state: every collaborator gives a
fixed answer. -/
def scripted (en : Option GoError) (mk : Result Service)
    (ls : Result ListLocationsResponse) (cr dl : Result Operation)
    (gt : Result CloudFunction) (up : Result GenerateUploadUrlResponse) : Env Unit where
  defaultUserAgent := "deploystack"
  EnableService := fun _ _ s => (en, s)
  NewService := fun s => (mk, s)
  LocationsList := fun _ _ s => (ls, s)
  FunctionsCreate := fun _ _ _ s => (cr, s)
  FunctionsDelete := fun _ _ s => (dl, s)
  FunctionsGet := fun _ _ s => (gt, s)
  FunctionsGenerateUploadUrl := fun _ _ _ s => (up, s)

/-- A location with the given identifier. -/
def loc (id : String) : Location :=
  { LocationId := id, Name := "projects/demo-project/locations/" ++ id, DisplayName := id }

/-- The state at program start: no cached client, empty trace. -/
def initial (s : σ) : State σ :=
  { cloudfunctionsService := none, remote := s, trace := [] }

/-- A state in which the client `svc` is already cached. -/
def cached (svc : Service) (s : σ) : State σ :=
  { cloudfunctionsService := some svc, remote := s, trace := [] }

/-- A client as `NewService` builds it. -/
def client : Service :=
  { id := 1, UserAgent := "" }

/-- A sample descriptor. -/
def hello : CloudFunction :=
  { Name := "projects/p/locations/r/functions/f", Description := "demo",
    EntryPoint := "Hello", Runtime := "go119", SourceUploadUrl := "https://upload",
    AvailableMemoryMb := 256 }

/-- An environment in which everything succeeds; the list call reports the
two regions of the example, out of order. -/
def allOk : Env Unit :=
  scripted none (Result.ok client)
    (Result.ok { Locations := [loc "us-east1", loc "us-central1"], NextPageToken := "" })
    (Result.ok { Name := "operations/1", Done := false })
    (Result.ok { Name := "operations/2", Done := false })
    (Result.ok hello) (Result.ok { UploadUrl := "https://signed" })

/-- An environment in which the API can be enabled and the client built, and
every call on the client fails with the error `boom`. -/
def remoteFails : Env Unit :=
  scripted none (Result.ok client) (Result.fail "boom") (Result.fail "boom")
    (Result.fail "boom") (Result.fail "boom") (Result.fail "boom")

/-- An environment in which `EnableService` fails with the error `denied`. -/
def activationFails : Env Unit :=
  scripted (some "denied") (Result.ok client) (Result.fail "boom") (Result.fail "boom")
    (Result.fail "boom") (Result.fail "boom") (Result.fail "boom")

/-- An environment in which the list call fails with an error whose text is
the text `RegionsFunctionsList` returns for a failed activation. -/
def listingFails : Env Unit :=
  scripted none (Result.ok client)
    (Result.fail "error activating service for polling: denied") (Result.fail "boom")
    (Result.fail "boom") (Result.fail "boom") (Result.fail "boom")

/-! ## A fake backend that stores functions -/

/-- Modelled from the spec: the remote side of the fake backend, that is the
stored descriptors, newest first, each with the parent location it was
created under. -/
structure FakeRemote where
  functions : List (String × CloudFunction)

/-- Whether a stored entry is the function with the fully-qualified name
`name`: the name lies under the entry's parent location and is the name of
the stored descriptor. -/
def FakeRemote.answers (name : String) (entry : String × CloudFunction) : Bool :=
  (entry.1 ++ "/functions/").data.isPrefixOf name.data && (entry.2.Name == name)

/-- The stored descriptor with the fully-qualified name `name`, if any. -/
def FakeRemote.lookup (r : FakeRemote) (name : String) : Option CloudFunction :=
  (r.functions.find? (FakeRemote.answers name)).map Prod.snd

/-- Modelled from the spec: the fake remote backend of the deploy-then-get
property, which is not part of the source. Create stores the descriptor
under its parent location and its name (and rejects a second descriptor
under the same pair), get returns the stored descriptor with the given
fully-qualified name, delete removes it. Activation, client construction,
listing and upload URLs are scripted. -/
def fake (ua : String) (en : String → String → Option GoError) (mk : Result Service)
    (ls : Result ListLocationsResponse) (up : Result GenerateUploadUrlResponse) :
    Env FakeRemote where
  defaultUserAgent := ua
  EnableService := fun project api s => (en project api, s)
  NewService := fun s => (mk, s)
  LocationsList := fun _ _ s => (ls, s)
  FunctionsCreate := fun _ location f s =>
    if s.functions.any (fun e => e.1 == location && e.2.Name == f.Name) then
      (Result.fail "already exists", s)
    else
      (Result.ok { Name := "operations/create", Done := false },
        { functions := (location, f) :: s.functions })
  FunctionsDelete := fun _ name s =>
    match s.lookup name with
    | none => (Result.fail "not found", s)
    | some _ =>
      (Result.ok { Name := "operations/delete", Done := false },
        { functions := s.functions.filter (fun e => !FakeRemote.answers name e) })
  FunctionsGet := fun _ name s =>
    match s.lookup name with
    | none => (Result.fail "not found", s)
    | some f => (Result.ok f, s)
  FunctionsGenerateUploadUrl := fun _ _ _ s => (up, s)

/-- The fake backend with activation and client construction succeeding. -/
def fakeOk : Env FakeRemote :=
  fake "deploystack" (fun _ _ => none) (Result.ok client)
    (Result.ok { Locations := [], NextPageToken := "" }) (Result.ok { UploadUrl := "https://signed" })

/-! ## The order used by `sortStrings` -/

theorem foldl_append_ids (ls : List Location) (acc : List String) :
    ls.foldl (fun acc v => acc ++ [v.LocationId]) acc = acc ++ ls.map Location.LocationId := by
  induction ls generalizing acc with
  | nil => simp
  | cons l ls ih => simp [List.foldl, ih]

/-! ## Handle acquisition -/

theorem get_cached (E : Env σ) (project : String) (st : State σ) (h : Service)
    (hc : st.cloudfunctionsService = some h) :
    getCloudFunctionsService E project st = (Result.ok h, st) := by
  unfold getCloudFunctionsService
  rw [hc]

theorem get_enable_fail (E : Env σ) (project : String) (st : State σ) (e : GoError) (s1 : σ)
    (hc : st.cloudfunctionsService = none)
    (h1 : E.EnableService project "cloudfunctions.googleapis.com" st.remote = (some e, s1)) :
    getCloudFunctionsService E project st =
      (Result.fail ("error activating service for polling: " ++ e),
        { cloudfunctionsService := none, remote := s1,
          trace := Event.enableService project "cloudfunctions.googleapis.com" (some e) ::
            st.trace }) := by
  unfold getCloudFunctionsService callEnableService
  simp [hc, h1]

theorem get_new_fail (E : Env σ) (project : String) (st : State σ) (e : GoError) (s1 s2 : σ)
    (hc : st.cloudfunctionsService = none)
    (h1 : E.EnableService project "cloudfunctions.googleapis.com" st.remote = (none, s1))
    (h2 : E.NewService s1 = (Result.fail e, s2)) :
    getCloudFunctionsService E project st =
      (Result.fail e,
        { cloudfunctionsService := none, remote := s2,
          trace := Event.newService (Result.fail e) ::
            Event.enableService project "cloudfunctions.googleapis.com" none :: st.trace }) := by
  unfold getCloudFunctionsService callEnableService callNewService
  simp [hc, h1, h2]

theorem get_new_ok (E : Env σ) (project : String) (st : State σ) (built : Service) (s1 s2 : σ)
    (hc : st.cloudfunctionsService = none)
    (h1 : E.EnableService project "cloudfunctions.googleapis.com" st.remote = (none, s1))
    (h2 : E.NewService s1 = (Result.ok built, s2)) :
    getCloudFunctionsService E project st =
      (Result.ok { built with UserAgent := E.defaultUserAgent },
        { cloudfunctionsService := some { built with UserAgent := E.defaultUserAgent },
          remote := s2,
          trace := Event.newService (Result.ok built) ::
            Event.enableService project "cloudfunctions.googleapis.com" none :: st.trace }) := by
  unfold getCloudFunctionsService callEnableService callNewService
  simp [hc, h1, h2]

/-- The three ways a call to `getCloudFunctionsService` without a cached
client can go. -/
theorem get_uncached (E : Env σ) (project : String) (st : State σ)
    (hc : st.cloudfunctionsService = none) :
    (∃ e s1, E.EnableService project "cloudfunctions.googleapis.com" st.remote = (some e, s1) ∧
      getCloudFunctionsService E project st =
        (Result.fail ("error activating service for polling: " ++ e),
          { cloudfunctionsService := none, remote := s1,
            trace := Event.enableService project "cloudfunctions.googleapis.com" (some e) ::
              st.trace })) ∨
    (∃ e s1 s2, E.EnableService project "cloudfunctions.googleapis.com" st.remote = (none, s1) ∧
      E.NewService s1 = (Result.fail e, s2) ∧
      getCloudFunctionsService E project st =
        (Result.fail e,
          { cloudfunctionsService := none, remote := s2,
            trace := Event.newService (Result.fail e) ::
              Event.enableService project "cloudfunctions.googleapis.com" none :: st.trace })) ∨
    (∃ built s1 s2,
      E.EnableService project "cloudfunctions.googleapis.com" st.remote = (none, s1) ∧
      E.NewService s1 = (Result.ok built, s2) ∧
      getCloudFunctionsService E project st =
        (Result.ok { built with UserAgent := E.defaultUserAgent },
          { cloudfunctionsService := some { built with UserAgent := E.defaultUserAgent },
            remote := s2,
            trace := Event.newService (Result.ok built) ::
              Event.enableService project "cloudfunctions.googleapis.com" none ::
              st.trace })) := by
  rcases h1 : E.EnableService project "cloudfunctions.googleapis.com" st.remote with ⟨r1, s1⟩
  cases r1 with
  | some e => exact Or.inl ⟨e, s1, rfl, get_enable_fail E project st e s1 hc h1⟩
  | none =>
    rcases h2 : E.NewService s1 with ⟨r2, s2⟩
    cases r2 with
    | fail e => exact Or.inr (Or.inl ⟨e, s1, s2, rfl, h2, get_new_fail E project st e s1 s2 hc h1 h2⟩)
    | ok built =>
      exact Or.inr (Or.inr ⟨built, s1, s2, rfl, h2, get_new_ok E project st built s1 s2 hc h1 h2⟩)

theorem get_uncached_trace (E : Env σ) (project : String) (st : State σ)
    (hc : st.cloudfunctionsService = none) :
    ∃ res rest,
      (getCloudFunctionsService E project st).2.trace =
        rest ++ Event.enableService project "cloudfunctions.googleapis.com" res :: st.trace ∧
      (rest = [] ∨ ∃ r2, rest = [Event.newService r2]) := by
  rcases get_uncached E project st hc with ⟨e, s1, _, h⟩ | ⟨e, s1, s2, _, _, h⟩ |
    ⟨built, s1, s2, _, _, h⟩
  · rw [h]
    exact ⟨some e, [], rfl, Or.inl rfl⟩
  · rw [h]
    exact ⟨none, [Event.newService (Result.fail e)], rfl, Or.inr ⟨_, rfl⟩⟩
  · rw [h]
    exact ⟨none, [Event.newService (Result.ok built)], rfl, Or.inr ⟨_, rfl⟩⟩

theorem get_ok_cache (E : Env σ) (project : String) (st : State σ) (svc : Service)
    (h : (getCloudFunctionsService E project st).1 = Result.ok svc) :
    (getCloudFunctionsService E project st).2.cloudfunctionsService = some svc := by
  cases hc : st.cloudfunctionsService with
  | some c =>
    rw [get_cached E project st c hc] at h ⊢
    simp only [Result.ok.injEq] at h
    rw [hc, h]
  | none =>
    rcases get_uncached E project st hc with ⟨e, s1, _, h0⟩ | ⟨e, s1, s2, _, _, h0⟩ |
      ⟨built, s1, s2, _, _, h0⟩
    · rw [h0] at h
      simp at h
    · rw [h0] at h
      simp at h
    · rw [h0] at h ⊢
      simp only [Result.ok.injEq] at h
      simp [h]

theorem get_fail_cache (E : Env σ) (project : String) (st : State σ) (e : GoError)
    (h : (getCloudFunctionsService E project st).1 = Result.fail e) :
    st.cloudfunctionsService = none ∧
      (getCloudFunctionsService E project st).2.cloudfunctionsService = none := by
  cases hc : st.cloudfunctionsService with
  | some c =>
    rw [get_cached E project st c hc] at h
    simp at h
  | none =>
    refine ⟨rfl, ?_⟩
    rcases get_uncached E project st hc with ⟨e, s1, _, h0⟩ | ⟨e, s1, s2, _, _, h0⟩ |
      ⟨built, s1, s2, _, _, h0⟩
    · rw [h0]
    · rw [h0]
    · rw [h0] at h
      simp at h

/-- The events a call to `getCloudFunctionsService` records: no call on the
client, and one `EnableService` call exactly when nothing was cached. -/
theorem get_trace (E : Env σ) (project : String) (st : State σ) :
    ∃ new, (getCloudFunctionsService E project st).2.trace = new ++ st.trace ∧
      remoteCalls new = [] ∧
      enableCalls new =
        (match st.cloudfunctionsService with
         | some _ => []
         | none => [(project, "cloudfunctions.googleapis.com")]) ∧
      (st.cloudfunctionsService = none → new ≠ []) := by
  cases hc : st.cloudfunctionsService with
  | some c =>
    rw [get_cached E project st c hc]
    exact ⟨[], rfl, rfl, rfl, fun h => by simp at h⟩
  | none =>
    rcases get_uncached E project st hc with ⟨e, s1, _, h0⟩ | ⟨e, s1, s2, _, _, h0⟩ |
      ⟨built, s1, s2, _, _, h0⟩
    · rw [h0]
      exact ⟨[_], rfl, rfl, rfl, fun _ => by simp⟩
    · rw [h0]
      exact ⟨[_, _], rfl, rfl, rfl, fun _ => by simp⟩
    · rw [h0]
      exact ⟨[_, _], rfl, rfl, rfl, fun _ => by simp⟩

/-- C9. `getCloudFunctionsService` with no cached client: it calls
`EnableService(project, "cloudfunctions.googleapis.com")` exactly once, and
before `NewService`. If that call fails with `e`, nothing else is called,
the result is the error `"error activating service for polling: " ++ e` and
the cache stays empty. If it succeeds, `NewService` is called once; when
that fails the cache stays empty and its error is returned, and when it
succeeds the client that is returned is the one that is cached and carries
`defaultUserAgent`. With the cache still empty, the next call (for any
project) starts with `EnableService` again. -/
theorem getCloudFunctionsService_uncached (E : Env σ) (project : String) (st : State σ)
    (hc : st.cloudfunctionsService = none) :
    ∃ res rest,
      res = (E.EnableService project "cloudfunctions.googleapis.com" st.remote).1 ∧
      (getCloudFunctionsService E project st).2.trace =
        rest ++ Event.enableService project "cloudfunctions.googleapis.com" res :: st.trace ∧
      (∀ e, res = some e →
        rest = [] ∧
        (getCloudFunctionsService E project st).1 =
          Result.fail ("error activating service for polling: " ++ e) ∧
        (getCloudFunctionsService E project st).2.cloudfunctionsService = none) ∧
      (res = none →
        ∃ r2, rest = [Event.newService r2] ∧
          r2 = (E.NewService
            (E.EnableService project "cloudfunctions.googleapis.com" st.remote).2).1 ∧
          (∀ e, r2 = Result.fail e →
            (getCloudFunctionsService E project st).1 = Result.fail e ∧
            (getCloudFunctionsService E project st).2.cloudfunctionsService = none) ∧
          (∀ built, r2 = Result.ok built →
            (getCloudFunctionsService E project st).1 =
              Result.ok { built with UserAgent := E.defaultUserAgent } ∧
            (getCloudFunctionsService E project st).2.cloudfunctionsService =
              some { built with UserAgent := E.defaultUserAgent })) ∧
      ((getCloudFunctionsService E project st).2.cloudfunctionsService = none →
        ∀ next, ∃ res2 rest2,
          (getCloudFunctionsService E next (getCloudFunctionsService E project st).2).2.trace =
            rest2 ++ Event.enableService next "cloudfunctions.googleapis.com" res2 ::
              (getCloudFunctionsService E project st).2.trace) := by
  have hnext : (getCloudFunctionsService E project st).2.cloudfunctionsService = none →
      ∀ next, ∃ res2 rest2,
        (getCloudFunctionsService E next (getCloudFunctionsService E project st).2).2.trace =
          rest2 ++ Event.enableService next "cloudfunctions.googleapis.com" res2 ::
            (getCloudFunctionsService E project st).2.trace := by
    intro h next
    obtain ⟨res2, rest2, h2, _⟩ := get_uncached_trace E next _ h
    exact ⟨res2, rest2, h2⟩
  refine ⟨(E.EnableService project "cloudfunctions.googleapis.com" st.remote).1, ?_⟩
  revert hnext
  rcases get_uncached E project st hc with ⟨e, s1, h1, h⟩ | ⟨e, s1, s2, h1, h2, h⟩ |
    ⟨built, s1, s2, h1, h2, h⟩
  · rw [h, h1]
    intro hnext
    refine ⟨[], rfl, rfl, ?_, ?_, hnext⟩
    · intro e0 he
      simp only [Option.some.injEq] at he
      subst he
      exact ⟨rfl, rfl, rfl⟩
    · intro h0
      simp at h0
  · rw [h, h1]
    intro hnext
    refine ⟨[Event.newService (Result.fail e)], rfl, rfl, ?_, ?_, hnext⟩
    · intro e0 he
      simp at he
    · intro _
      refine ⟨Result.fail e, rfl, ?_, ?_, ?_⟩
      · rw [h2]
      · intro e0 he
        simp only [Result.fail.injEq] at he
        subst he
        exact ⟨rfl, rfl⟩
      · intro b hb
        simp at hb
  · rw [h, h1]
    intro hnext
    refine ⟨[Event.newService (Result.ok built)], rfl, rfl, ?_, ?_, hnext⟩
    · intro e0 he
      simp at he
    · intro _
      refine ⟨Result.ok built, rfl, ?_, ?_, ?_⟩
      · rw [h2]
      · intro e0 he
        simp at he
      · intro b hb
        simp only [Result.ok.injEq] at hb
        subst hb
        exact ⟨rfl, rfl⟩

/-- An instance: the first acquisition in the environment where everything succeeds. -/
theorem getCloudFunctionsService_uncached_demo :
    (initial ()).cloudfunctionsService = none ∧
    ∃ res rest,
      res = (allOk.EnableService "demo-project" "cloudfunctions.googleapis.com"
        (initial ()).remote).1 ∧
      (getCloudFunctionsService allOk "demo-project" (initial ())).2.trace =
        rest ++ Event.enableService "demo-project" "cloudfunctions.googleapis.com" res ::
          (initial ()).trace ∧
      (∀ e, res = some e →
        rest = [] ∧
        (getCloudFunctionsService allOk "demo-project" (initial ())).1 =
          Result.fail ("error activating service for polling: " ++ e) ∧
        (getCloudFunctionsService allOk "demo-project" (initial ())).2.cloudfunctionsService =
          none) ∧
      (res = none →
        ∃ r2, rest = [Event.newService r2] ∧
          r2 = (allOk.NewService
            (allOk.EnableService "demo-project" "cloudfunctions.googleapis.com"
              (initial ()).remote).2).1 ∧
          (∀ e, r2 = Result.fail e →
            (getCloudFunctionsService allOk "demo-project" (initial ())).1 = Result.fail e ∧
            (getCloudFunctionsService allOk "demo-project"
              (initial ())).2.cloudfunctionsService = none) ∧
          (∀ built, r2 = Result.ok built →
            (getCloudFunctionsService allOk "demo-project" (initial ())).1 =
              Result.ok { built with UserAgent := allOk.defaultUserAgent } ∧
            (getCloudFunctionsService allOk "demo-project"
              (initial ())).2.cloudfunctionsService =
              some { built with UserAgent := allOk.defaultUserAgent })) ∧
      ((getCloudFunctionsService allOk "demo-project" (initial ())).2.cloudfunctionsService =
          none →
        ∀ next, ∃ res2 rest2,
          (getCloudFunctionsService allOk next
              (getCloudFunctionsService allOk "demo-project" (initial ())).2).2.trace =
            rest2 ++ Event.enableService next "cloudfunctions.googleapis.com" res2 ::
              (getCloudFunctionsService allOk "demo-project" (initial ())).2.trace) :=
  ⟨rfl, getCloudFunctionsService_uncached allOk "demo-project" (initial ()) rfl⟩

/-! ## The operations, by the outcome of handle acquisition -/

theorem deploy_of_get_fail (E : Env σ) (project region : String) (f : CloudFunction)
    (st st1 : State σ) (e : GoError)
    (h : getCloudFunctionsService E project st = (Result.fail e, st1)) :
    DeployFunction E project region f st = (some e, st1) := by
  unfold DeployFunction
  rw [h]

theorem deploy_of_get_ok (E : Env σ) (project region : String) (f : CloudFunction)
    (st st1 : State σ) (svc : Service)
    (h : getCloudFunctionsService E project st = (Result.ok svc, st1)) :
    DeployFunction E project region f st =
      ((match (E.FunctionsCreate svc ("projects/" ++ project ++ "/locations/" ++ region) f
            st1.remote).1 with
        | Result.fail e => some ("could not create function: " ++ e)
        | Result.ok _ => none),
       { st1 with
         remote := (E.FunctionsCreate svc ("projects/" ++ project ++ "/locations/" ++ region) f
           st1.remote).2,
         trace := Event.functionsCreate svc ("projects/" ++ project ++ "/locations/" ++ region) f
           (E.FunctionsCreate svc ("projects/" ++ project ++ "/locations/" ++ region) f
             st1.remote).1 :: st1.trace }) := by
  unfold DeployFunction callFunctionsCreate
  rw [h]
  dsimp only
  rcases E.FunctionsCreate svc ("projects/" ++ project ++ "/locations/" ++ region) f
    st1.remote with ⟨r, s2⟩
  cases r <;> rfl

theorem delete_of_get_fail (E : Env σ) (project region name : String)
    (st st1 : State σ) (e : GoError)
    (h : getCloudFunctionsService E project st = (Result.fail e, st1)) :
    DeleteFunction E project region name st = (some e, st1) := by
  unfold DeleteFunction
  rw [h]

theorem delete_of_get_ok (E : Env σ) (project region name : String)
    (st st1 : State σ) (svc : Service)
    (h : getCloudFunctionsService E project st = (Result.ok svc, st1)) :
    DeleteFunction E project region name st =
      ((match (E.FunctionsDelete svc
            ("projects/" ++ project ++ "/locations/" ++ region ++ "/functions/" ++ name)
            st1.remote).1 with
        | Result.fail e => some ("could not create function: " ++ e)
        | Result.ok _ => none),
       { st1 with
         remote := (E.FunctionsDelete svc
           ("projects/" ++ project ++ "/locations/" ++ region ++ "/functions/" ++ name)
           st1.remote).2,
         trace := Event.functionsDelete svc
           ("projects/" ++ project ++ "/locations/" ++ region ++ "/functions/" ++ name)
           (E.FunctionsDelete svc
             ("projects/" ++ project ++ "/locations/" ++ region ++ "/functions/" ++ name)
             st1.remote).1 :: st1.trace }) := by
  unfold DeleteFunction callFunctionsDelete
  rw [h]
  dsimp only
  rcases E.FunctionsDelete svc
    ("projects/" ++ project ++ "/locations/" ++ region ++ "/functions/" ++ name)
    st1.remote with ⟨r, s2⟩
  cases r <;> rfl

theorem getFunction_of_get_fail (E : Env σ) (project region name : String)
    (st st1 : State σ) (e : GoError)
    (h : getCloudFunctionsService E project st = (Result.fail e, st1)) :
    GetFunction E project region name st = ((none, some e), st1) := by
  unfold GetFunction
  rw [h]

theorem getFunction_of_get_ok (E : Env σ) (project region name : String)
    (st st1 : State σ) (svc : Service)
    (h : getCloudFunctionsService E project st = (Result.ok svc, st1)) :
    GetFunction E project region name st =
      ((match (E.FunctionsGet svc
            ("projects/" ++ project ++ "/locations/" ++ region ++ "/functions/" ++ name)
            st1.remote).1 with
        | Result.fail e => (none, some ("could not get function: " ++ e))
        | Result.ok result => (some result, none)),
       { st1 with
         remote := (E.FunctionsGet svc
           ("projects/" ++ project ++ "/locations/" ++ region ++ "/functions/" ++ name)
           st1.remote).2,
         trace := Event.functionsGet svc
           ("projects/" ++ project ++ "/locations/" ++ region ++ "/functions/" ++ name)
           (E.FunctionsGet svc
             ("projects/" ++ project ++ "/locations/" ++ region ++ "/functions/" ++ name)
             st1.remote).1 :: st1.trace }) := by
  unfold GetFunction callFunctionsGet
  rw [h]
  dsimp only
  rcases E.FunctionsGet svc
    ("projects/" ++ project ++ "/locations/" ++ region ++ "/functions/" ++ name)
    st1.remote with ⟨r, s2⟩
  cases r <;> rfl

theorem signedURL_of_get_fail (E : Env σ) (project region : String)
    (st st1 : State σ) (e : GoError)
    (h : getCloudFunctionsService E project st = (Result.fail e, st1)) :
    GenerateFunctionSignedURL E project region st = (("", some e), st1) := by
  unfold GenerateFunctionSignedURL
  simp only [h]

theorem signedURL_of_get_ok (E : Env σ) (project region : String)
    (st st1 : State σ) (svc : Service)
    (h : getCloudFunctionsService E project st = (Result.ok svc, st1)) :
    GenerateFunctionSignedURL E project region st =
      ((match (E.FunctionsGenerateUploadUrl svc
            ("projects/" ++ project ++ "/locations/" ++ region) { KmsKeyName := "" }
            st1.remote).1 with
        | Result.fail e => ("", some e)
        | Result.ok result => (result.UploadUrl, none)),
       { st1 with
         remote := (E.FunctionsGenerateUploadUrl svc
           ("projects/" ++ project ++ "/locations/" ++ region) { KmsKeyName := "" }
           st1.remote).2,
         trace := Event.functionsGenerateUploadUrl svc
           ("projects/" ++ project ++ "/locations/" ++ region) { KmsKeyName := "" }
           (E.FunctionsGenerateUploadUrl svc
             ("projects/" ++ project ++ "/locations/" ++ region) { KmsKeyName := "" }
             st1.remote).1 :: st1.trace }) := by
  unfold GenerateFunctionSignedURL callFunctionsGenerateUploadUrl
  simp only [h]
  rcases E.FunctionsGenerateUploadUrl svc
    ("projects/" ++ project ++ "/locations/" ++ region) { KmsKeyName := "" }
    st1.remote with ⟨r, s2⟩
  cases r <;> rfl

/-- `RegionsFunctionsList` when its own call to `EnableService` fails. -/
theorem list_enable_fail (E : Env σ) (project : String) (st : State σ) (e : GoError) (s1 : σ)
    (h1 : E.EnableService project "cloudfunctions.googleapis.com" st.remote = (some e, s1)) :
    RegionsFunctionsList E project st =
      ((some [], some ("error activating service for polling: " ++ e)),
        { st with remote := s1,
                  trace := Event.enableService project "cloudfunctions.googleapis.com"
                    (some e) :: st.trace }) := by
  unfold RegionsFunctionsList callEnableService
  simp [h1]

theorem list_get_fail (E : Env σ) (project : String) (st st2 : State σ) (e : GoError) (s1 : σ)
    (h1 : E.EnableService project "cloudfunctions.googleapis.com" st.remote = (none, s1))
    (h2 : getCloudFunctionsService E project
      { st with remote := s1,
                trace := Event.enableService project "cloudfunctions.googleapis.com" none ::
                  st.trace } = (Result.fail e, st2)) :
    RegionsFunctionsList E project st = ((some [], some e), st2) := by
  unfold RegionsFunctionsList callEnableService
  simp [h1, h2]

theorem list_get_ok (E : Env σ) (project : String) (st st2 : State σ) (svc : Service) (s1 : σ)
    (h1 : E.EnableService project "cloudfunctions.googleapis.com" st.remote = (none, s1))
    (h2 : getCloudFunctionsService E project
      { st with remote := s1,
                trace := Event.enableService project "cloudfunctions.googleapis.com" none ::
                  st.trace } = (Result.ok svc, st2)) :
    RegionsFunctionsList E project st =
      ((match (E.LocationsList svc ("projects/" ++ project) st2.remote).1 with
        | Result.fail e => (some [], some e)
        | Result.ok results =>
          (some (sortStrings (results.Locations.map Location.LocationId)), none)),
       { st2 with
         remote := (E.LocationsList svc ("projects/" ++ project) st2.remote).2,
         trace := Event.locationsList svc ("projects/" ++ project)
           (E.LocationsList svc ("projects/" ++ project) st2.remote).1 :: st2.trace }) := by
  unfold RegionsFunctionsList callEnableService callLocationsList
  simp only [h1, h2]
  rcases E.LocationsList svc ("projects/" ++ project) st2.remote with ⟨r, s3⟩
  cases r with
  | fail e => rfl
  | ok results => simp [foldl_append_ids]

theorem get_fail_head (E : Env σ) (project : String) (st : State σ) (e : GoError)
    (h : (getCloudFunctionsService E project st).1 = Result.fail e) :
    (∃ e0, (getCloudFunctionsService E project st).2.trace.head? =
        some (Event.enableService project "cloudfunctions.googleapis.com" (some e0)) ∧
      e = "error activating service for polling: " ++ e0) ∨
    (getCloudFunctionsService E project st).2.trace.head? =
      some (Event.newService (Result.fail e)) := by
  have hc := (get_fail_cache E project st e h).1
  rcases get_uncached E project st hc with ⟨e1, s1, _, h0⟩ | ⟨e1, s1, s2, _, _, h0⟩ |
    ⟨built, s1, s2, _, _, h0⟩
  · rw [h0] at h ⊢
    simp only [Result.fail.injEq] at h
    exact Or.inl ⟨e1, rfl, h.symm⟩
  · rw [h0] at h ⊢
    simp only [Result.fail.injEq] at h
    subst h
    exact Or.inr rfl
  · rw [h0] at h
    simp at h

/-! ## `RegionsFunctionsList` -/

/-- C4, as the code has it. Whenever `RegionsFunctionsList(project)` returns a
non-nil error, the returned slice is the empty, non-nil slice. The error
carries a context only for a failed activation: when a call to
`EnableService` failed with `e` it is
`"error activating service for polling: " ++ e`; when `NewService` or the
remote list call failed with `e` it is `e` itself. -/
theorem RegionsFunctionsList_error (E : Env σ) (project : String) (st : State σ)
    (err : GoError) (h : (RegionsFunctionsList E project st).1.2 = some err) :
    (RegionsFunctionsList E project st).1.1 = some [] ∧
    ((∃ e, (RegionsFunctionsList E project st).2.trace.head? =
          some (Event.enableService project "cloudfunctions.googleapis.com" (some e)) ∧
        err = "error activating service for polling: " ++ e) ∨
     (∃ e, (RegionsFunctionsList E project st).2.trace.head? =
          some (Event.newService (Result.fail e)) ∧
        err = e) ∨
     (∃ svc e, (RegionsFunctionsList E project st).2.trace.head? =
          some (Event.locationsList svc ("projects/" ++ project) (Result.fail e)) ∧
        err = e)) := by
  rcases h1 : E.EnableService project "cloudfunctions.googleapis.com" st.remote with ⟨r1, s1⟩
  cases r1 with
  | some e =>
    rw [list_enable_fail E project st e s1 h1] at h ⊢
    simp only [Option.some.injEq] at h
    exact ⟨rfl, Or.inl ⟨e, rfl, h.symm⟩⟩
  | none =>
    rcases h2 : getCloudFunctionsService E project
      { st with remote := s1,
                trace := Event.enableService project "cloudfunctions.googleapis.com" none ::
                  st.trace } with ⟨r2, st2⟩
    cases r2 with
    | fail e =>
      rw [list_get_fail E project st st2 e s1 h1 h2] at h ⊢
      simp only [Option.some.injEq] at h
      subst h
      have h3 := get_fail_head E project _ e (by rw [h2])
      rw [h2] at h3
      rcases h3 with ⟨e0, h4, h5⟩ | h4
      · exact ⟨rfl, Or.inl ⟨e0, h4, h5⟩⟩
      · exact ⟨rfl, Or.inr (Or.inl ⟨e, h4, rfl⟩)⟩
    | ok got =>
      rw [list_get_ok E project st st2 got s1 h1 h2] at h ⊢
      rcases h3 : E.LocationsList got ("projects/" ++ project) st2.remote with ⟨r3, s3⟩
      rw [h3] at h
      cases r3 with
      | fail e =>
        simp only [Option.some.injEq] at h
        subst h
        exact ⟨rfl, Or.inr (Or.inr ⟨got, e, rfl, rfl⟩)⟩
      | ok results => simp at h

/-- An instance: the list call fails with `boom`. -/
theorem RegionsFunctionsList_error_demo :
    (RegionsFunctionsList remoteFails "demo-project" (initial ())).1.2 = some "boom" ∧
    ((RegionsFunctionsList remoteFails "demo-project" (initial ())).1.1 = some [] ∧
    ((∃ e, (RegionsFunctionsList remoteFails "demo-project" (initial ())).2.trace.head? =
          some (Event.enableService "demo-project" "cloudfunctions.googleapis.com" (some e)) ∧
        "boom" = "error activating service for polling: " ++ e) ∨
     (∃ e, (RegionsFunctionsList remoteFails "demo-project" (initial ())).2.trace.head? =
          some (Event.newService (Result.fail e)) ∧
        "boom" = e) ∨
     (∃ svc e, (RegionsFunctionsList remoteFails "demo-project" (initial ())).2.trace.head? =
          some (Event.locationsList svc ("projects/" ++ "demo-project") (Result.fail e)) ∧
        "boom" = e))) :=
  ⟨by decide, RegionsFunctionsList_error remoteFails "demo-project" (initial ()) "boom"
    (by decide)⟩

/-- C4, as stated, fails. No reading of the returned error tells which step
failed, not even activation from listing: a failed activation with the
error `denied` and a failed list call with the error
`error activating service for polling: denied` make `RegionsFunctionsList`
return the same slice and the same error. -/
theorem RegionsFunctionsList_error_not_descriptive :
    ¬ ∃ describe : GoError → Step,
      ∀ (E : Env Unit) (project : String) (st : State Unit) (err : GoError),
        (RegionsFunctionsList E project st).1.2 = some err →
        failedStep (RegionsFunctionsList E project st).2.trace = some (describe err) := by
  rintro ⟨describe, h⟩
  have ha := h activationFails "p" (initial ())
    "error activating service for polling: denied" (by decide)
  have hl := h listingFails "p" (initial ())
    "error activating service for polling: denied" (by decide)
  have ha2 : failedStep (RegionsFunctionsList activationFails "p" (initial ())).2.trace =
      some Step.activation := by decide
  have hl2 : failedStep (RegionsFunctionsList listingFails "p" (initial ())).2.trace =
      some Step.listing := by decide
  rw [ha2] at ha
  rw [hl2] at hl
  rw [← ha] at hl
  simp at hl

theorem ops_remoteCalls (E : Env σ) (project region name : String) (f : CloudFunction)
    (st : State σ) :
    (∃ new, (DeleteFunction E project region name st).2.trace = new ++ st.trace ∧
      remoteCalls new =
        match (getCloudFunctionsService E project st).1 with
        | Result.ok svc =>
          [(svc, "projects/" ++ project ++ "/locations/" ++ region ++ "/functions/" ++ name)]
        | Result.fail _ => []) ∧
    (∃ new, (GetFunction E project region name st).2.trace = new ++ st.trace ∧
      remoteCalls new =
        match (getCloudFunctionsService E project st).1 with
        | Result.ok svc =>
          [(svc, "projects/" ++ project ++ "/locations/" ++ region ++ "/functions/" ++ name)]
        | Result.fail _ => []) ∧
    (∃ new, (DeployFunction E project region f st).2.trace = new ++ st.trace ∧
      remoteCalls new =
        match (getCloudFunctionsService E project st).1 with
        | Result.ok svc => [(svc, "projects/" ++ project ++ "/locations/" ++ region)]
        | Result.fail _ => []) ∧
    (∃ new, (GenerateFunctionSignedURL E project region st).2.trace = new ++ st.trace ∧
      remoteCalls new =
        match (getCloudFunctionsService E project st).1 with
        | Result.ok svc => [(svc, "projects/" ++ project ++ "/locations/" ++ region)]
        | Result.fail _ => []) := by
  obtain ⟨pre, hpre, hrc, _, _⟩ := get_trace E project st
  rcases hg : getCloudFunctionsService E project st with ⟨r, st1⟩
  rw [hg] at hpre
  dsimp only at hpre
  cases r with
  | fail e =>
    rw [delete_of_get_fail E project region name st st1 e hg,
      getFunction_of_get_fail E project region name st st1 e hg,
      deploy_of_get_fail E project region f st st1 e hg,
      signedURL_of_get_fail E project region st st1 e hg]
    exact ⟨⟨pre, hpre, hrc⟩, ⟨pre, hpre, hrc⟩, ⟨pre, hpre, hrc⟩, ⟨pre, hpre, hrc⟩⟩
  | ok svc =>
    rw [delete_of_get_ok E project region name st st1 svc hg,
      getFunction_of_get_ok E project region name st st1 svc hg,
      deploy_of_get_ok E project region f st st1 svc hg,
      signedURL_of_get_ok E project region st st1 svc hg]
    refine ⟨⟨Event.functionsDelete svc
        ("projects/" ++ project ++ "/locations/" ++ region ++ "/functions/" ++ name)
        (E.FunctionsDelete svc
          ("projects/" ++ project ++ "/locations/" ++ region ++ "/functions/" ++ name)
          st1.remote).1 :: pre, ?_, ?_⟩,
      ⟨Event.functionsGet svc
        ("projects/" ++ project ++ "/locations/" ++ region ++ "/functions/" ++ name)
        (E.FunctionsGet svc
          ("projects/" ++ project ++ "/locations/" ++ region ++ "/functions/" ++ name)
          st1.remote).1 :: pre, ?_, ?_⟩,
      ⟨Event.functionsCreate svc ("projects/" ++ project ++ "/locations/" ++ region) f
        (E.FunctionsCreate svc ("projects/" ++ project ++ "/locations/" ++ region) f
          st1.remote).1 :: pre, ?_, ?_⟩,
      ⟨Event.functionsGenerateUploadUrl svc ("projects/" ++ project ++ "/locations/" ++ region)
        { KmsKeyName := "" }
        (E.FunctionsGenerateUploadUrl svc ("projects/" ++ project ++ "/locations/" ++ region)
          { KmsKeyName := "" } st1.remote).1 :: pre, ?_, ?_⟩⟩
    all_goals first
      | (dsimp only; rw [hpre]; rfl)
      | (simp only [remoteCalls, List.filterMap_cons, Event.remoteCall] at hrc ⊢; rw [hrc])

/-- C2. The resource name given to the remote API depends on the arguments
only: `DeleteFunction` and `GetFunction` call the client on
`"projects/" ++ project ++ "/locations/" ++ region ++ "/functions/" ++ name`,
`DeployFunction` and `GenerateFunctionSignedURL` on
`"projects/" ++ project ++ "/locations/" ++ region`. Each makes that one
call on the client when a client could be obtained, and none otherwise,
whatever the environment, the cache and the earlier calls are. The call is
the environment's: when a client `svc` was obtained, the remote side after
the operation is the one the environment's delete, get, create or upload
URL call leaves when applied to `svc` and that name on the remote side
left by the acquisition, and the answer recorded is the answer of that
call; when no client was obtained the operation leaves the state as the
acquisition left it. -/
theorem resource_names (E : Env σ) (project region name : String) (f : CloudFunction)
    (st : State σ) :
    (∃ new, (DeleteFunction E project region name st).2.trace = new ++ st.trace ∧
      remoteCalls new =
        match (getCloudFunctionsService E project st).1 with
        | Result.ok svc =>
          [(svc, "projects/" ++ project ++ "/locations/" ++ region ++ "/functions/" ++ name)]
        | Result.fail _ => []) ∧
    (∃ new, (GetFunction E project region name st).2.trace = new ++ st.trace ∧
      remoteCalls new =
        match (getCloudFunctionsService E project st).1 with
        | Result.ok svc =>
          [(svc, "projects/" ++ project ++ "/locations/" ++ region ++ "/functions/" ++ name)]
        | Result.fail _ => []) ∧
    (∃ new, (DeployFunction E project region f st).2.trace = new ++ st.trace ∧
      remoteCalls new =
        match (getCloudFunctionsService E project st).1 with
        | Result.ok svc => [(svc, "projects/" ++ project ++ "/locations/" ++ region)]
        | Result.fail _ => []) ∧
    (∃ new, (GenerateFunctionSignedURL E project region st).2.trace = new ++ st.trace ∧
      remoteCalls new =
        match (getCloudFunctionsService E project st).1 with
        | Result.ok svc => [(svc, "projects/" ++ project ++ "/locations/" ++ region)]
        | Result.fail _ => []) ∧
    (∀ svc, (getCloudFunctionsService E project st).1 = Result.ok svc →
      (DeleteFunction E project region name st).2.remote =
        (E.FunctionsDelete svc
          ("projects/" ++ project ++ "/locations/" ++ region ++ "/functions/" ++ name)
          (getCloudFunctionsService E project st).2.remote).2 ∧
      (DeleteFunction E project region name st).2.trace =
        Event.functionsDelete svc
          ("projects/" ++ project ++ "/locations/" ++ region ++ "/functions/" ++ name)
          (E.FunctionsDelete svc
            ("projects/" ++ project ++ "/locations/" ++ region ++ "/functions/" ++ name)
            (getCloudFunctionsService E project st).2.remote).1 ::
          (getCloudFunctionsService E project st).2.trace) ∧
    (∀ e, (getCloudFunctionsService E project st).1 = Result.fail e →
      (DeleteFunction E project region name st).2 = (getCloudFunctionsService E project st).2) ∧
    (∀ svc, (getCloudFunctionsService E project st).1 = Result.ok svc →
      (GetFunction E project region name st).2.remote =
        (E.FunctionsGet svc
          ("projects/" ++ project ++ "/locations/" ++ region ++ "/functions/" ++ name)
          (getCloudFunctionsService E project st).2.remote).2 ∧
      (GetFunction E project region name st).2.trace =
        Event.functionsGet svc
          ("projects/" ++ project ++ "/locations/" ++ region ++ "/functions/" ++ name)
          (E.FunctionsGet svc
            ("projects/" ++ project ++ "/locations/" ++ region ++ "/functions/" ++ name)
            (getCloudFunctionsService E project st).2.remote).1 ::
          (getCloudFunctionsService E project st).2.trace) ∧
    (∀ e, (getCloudFunctionsService E project st).1 = Result.fail e →
      (GetFunction E project region name st).2 = (getCloudFunctionsService E project st).2) ∧
    (∀ svc, (getCloudFunctionsService E project st).1 = Result.ok svc →
      (DeployFunction E project region f st).2.remote =
        (E.FunctionsCreate svc
          ("projects/" ++ project ++ "/locations/" ++ region) f
          (getCloudFunctionsService E project st).2.remote).2 ∧
      (DeployFunction E project region f st).2.trace =
        Event.functionsCreate svc
          ("projects/" ++ project ++ "/locations/" ++ region) f
          (E.FunctionsCreate svc
            ("projects/" ++ project ++ "/locations/" ++ region) f
            (getCloudFunctionsService E project st).2.remote).1 ::
          (getCloudFunctionsService E project st).2.trace) ∧
    (∀ e, (getCloudFunctionsService E project st).1 = Result.fail e →
      (DeployFunction E project region f st).2 = (getCloudFunctionsService E project st).2) ∧
    (∀ svc, (getCloudFunctionsService E project st).1 = Result.ok svc →
      (GenerateFunctionSignedURL E project region st).2.remote =
        (E.FunctionsGenerateUploadUrl svc
          ("projects/" ++ project ++ "/locations/" ++ region) { KmsKeyName := "" }
          (getCloudFunctionsService E project st).2.remote).2 ∧
      (GenerateFunctionSignedURL E project region st).2.trace =
        Event.functionsGenerateUploadUrl svc
          ("projects/" ++ project ++ "/locations/" ++ region) { KmsKeyName := "" }
          (E.FunctionsGenerateUploadUrl svc
            ("projects/" ++ project ++ "/locations/" ++ region) { KmsKeyName := "" }
            (getCloudFunctionsService E project st).2.remote).1 ::
          (getCloudFunctionsService E project st).2.trace) ∧
    (∀ e, (getCloudFunctionsService E project st).1 = Result.fail e →
      (GenerateFunctionSignedURL E project region st).2 = (getCloudFunctionsService E project st).2) := by
  refine ⟨(ops_remoteCalls E project region name f st).1,
    (ops_remoteCalls E project region name f st).2.1,
    (ops_remoteCalls E project region name f st).2.2.1,
    (ops_remoteCalls E project region name f st).2.2.2, ?_⟩
  rcases hg : getCloudFunctionsService E project st with ⟨r, st1⟩
  cases r with
  | fail e0 =>
    rw [delete_of_get_fail E project region name st st1 e0 hg,
      getFunction_of_get_fail E project region name st st1 e0 hg,
      deploy_of_get_fail E project region f st st1 e0 hg,
      signedURL_of_get_fail E project region st st1 e0 hg]
    refine ⟨?_, fun _ _ => rfl, ?_, fun _ _ => rfl, ?_, fun _ _ => rfl, ?_, fun _ _ => rfl⟩
    all_goals
      intro svc hs
      simp at hs
  | ok got =>
    rw [delete_of_get_ok E project region name st st1 got hg,
      getFunction_of_get_ok E project region name st st1 got hg,
      deploy_of_get_ok E project region f st st1 got hg,
      signedURL_of_get_ok E project region st st1 got hg]
    refine ⟨?_, ?_, ?_, ?_, ?_, ?_, ?_, ?_⟩
    all_goals first
      | (intro svc hs
         simp only [Result.ok.injEq] at hs
         subst hs
         exact ⟨rfl, rfl⟩)
      | (intro e he
         simp at he)

/-- Instances: the names built for project `p`, region `r` and function `f`,
and the fake backend after `DeleteFunction` on the one function it stores. -/
theorem resource_names_demo :
    remoteCalls (DeleteFunction allOk "p" "r" "f" (cached client ())).2.trace =
      [(client, "projects/p/locations/r/functions/f")] ∧
    remoteCalls (GetFunction allOk "p" "r" "f" (cached client ())).2.trace =
      [(client, "projects/p/locations/r/functions/f")] ∧
    remoteCalls (DeployFunction allOk "p" "r" hello (cached client ())).2.trace =
      [(client, "projects/p/locations/r")] ∧
    remoteCalls (GenerateFunctionSignedURL allOk "p" "r" (cached client ())).2.trace =
      [(client, "projects/p/locations/r")] ∧
    (DeleteFunction fakeOk "p" "r" "f"
      (cached client { functions := [("projects/p/locations/r", hello)] })).2.remote =
      (fakeOk.FunctionsDelete client "projects/p/locations/r/functions/f"
        { functions := [("projects/p/locations/r", hello)] }).2 ∧
    (fakeOk.FunctionsDelete client "projects/p/locations/r/functions/f"
        { functions := [("projects/p/locations/r", hello)] }).2.functions = [] := by
  obtain ⟨⟨n1, h1, c1⟩, ⟨n2, h2, c2⟩, ⟨n3, h3, c3⟩, ⟨n4, h4, c4⟩, _⟩ :=
    resource_names allOk "p" "r" "f" hello (cached client ())
  have e : (cached client ()).trace = [] := rfl
  rw [e, List.append_nil] at h1 h2 h3 h4
  rw [h1, h2, h3, h4, c1, c2, c3, c4]
  exact ⟨by decide, by decide, by decide, by decide,
    ((resource_names fakeOk "p" "r" "f" hello
      (cached client { functions := [("projects/p/locations/r", hello)] })).2.2.2.2.1
        client rfl).1,
    by decide⟩

/-! ## Reuse of the cached client -/

theorem list_trace (E : Env σ) (project : String) (st : State σ) :
    ∃ new, (RegionsFunctionsList E project st).2.trace = new ++ st.trace ∧
      (remoteCalls new).length ≤ 1 ∧
      (∀ c, st.cloudfunctionsService = some c →
        (RegionsFunctionsList E project st).2.cloudfunctionsService = some c ∧
        enableCalls new = [(project, "cloudfunctions.googleapis.com")] ∧
        ∀ x ∈ remoteCalls new, x = (c, "projects/" ++ project)) := by
  rcases h1 : E.EnableService project "cloudfunctions.googleapis.com" st.remote with ⟨r1, s1⟩
  cases r1 with
  | some e =>
    rw [list_enable_fail E project st e s1 h1]
    refine ⟨[Event.enableService project "cloudfunctions.googleapis.com" (some e)], rfl,
      by simp [remoteCalls, Event.remoteCall], ?_⟩
    intro c hc
    exact ⟨hc, rfl, by simp [remoteCalls, Event.remoteCall]⟩
  | none =>
    rcases h2 : getCloudFunctionsService E project
      { st with remote := s1,
                trace := Event.enableService project "cloudfunctions.googleapis.com" none ::
                  st.trace } with ⟨r2, st2⟩
    obtain ⟨pre, hpre, hrc, hen, _⟩ := get_trace E project
      { st with remote := s1,
                trace := Event.enableService project "cloudfunctions.googleapis.com" none ::
                  st.trace }
    rw [h2] at hpre
    dsimp only at hpre hen
    have hrc2 : remoteCalls
        (pre ++ [Event.enableService project "cloudfunctions.googleapis.com" none]) = [] := by
      simp only [remoteCalls, List.filterMap_append] at hrc ⊢
      rw [hrc]
      rfl
    cases r2 with
    | fail e =>
      rw [list_get_fail E project st st2 e s1 h1 h2]
      have hf := get_fail_cache E project _ e (by rw [h2])
      refine ⟨pre ++ [Event.enableService project "cloudfunctions.googleapis.com" none],
        by simp [hpre], by simp [hrc2], ?_⟩
      intro c hc
      rw [hc] at hf
      simp at hf
    | ok got =>
      rw [list_get_ok E project st st2 got s1 h1 h2]
      have hk := get_ok_cache E project _ got (by rw [h2])
      rw [h2] at hk
      dsimp only at hk
      refine ⟨Event.locationsList got ("projects/" ++ project)
        (E.LocationsList got ("projects/" ++ project) st2.remote).1 ::
          (pre ++ [Event.enableService project "cloudfunctions.googleapis.com" none]),
        by simp [hpre], ?_, ?_⟩
      · simp only [remoteCalls, List.filterMap_cons, Event.remoteCall] at hrc2 ⊢
        rw [hrc2]
        simp
      · intro c hc
        have hg := get_cached E project
          { st with remote := s1,
                    trace := Event.enableService project "cloudfunctions.googleapis.com" none ::
                      st.trace } c hc
        rw [h2] at hg
        simp only [Prod.mk.injEq, Result.ok.injEq] at hg
        rw [hc] at hen
        refine ⟨by rw [hk, hg.1], ?_, ?_⟩
        · simp only [enableCalls, List.filterMap_cons, List.filterMap_append,
            Event.enableCall] at hen ⊢
          rw [hen]
          rfl
        · simp only [remoteCalls, List.filterMap_cons, Event.remoteCall] at hrc2 ⊢
          rw [hrc2, hg.1]
          simp

theorem run_trace (E : Env σ) (o : Op) (st : State σ) :
    ∃ new, (o.run E st).trace = new ++ st.trace ∧ (remoteCalls new).length ≤ 1 := by
  cases o with
  | regionsFunctionsList project =>
    obtain ⟨new, h1, h2, _⟩ := list_trace E project st
    exact ⟨new, h1, h2⟩
  | deployFunction project region f =>
    obtain ⟨_, _, ⟨new, h1, h2⟩, _⟩ := ops_remoteCalls E project region "" f st
    refine ⟨new, h1, ?_⟩
    rw [h2]
    cases (getCloudFunctionsService E project st).1 <;> simp
  | deleteFunction project region name =>
    obtain ⟨⟨new, h1, h2⟩, _⟩ := ops_remoteCalls E project region name hello st
    refine ⟨new, h1, ?_⟩
    rw [h2]
    cases (getCloudFunctionsService E project st).1 <;> simp
  | getFunction project region name =>
    obtain ⟨_, ⟨new, h1, h2⟩, _⟩ := ops_remoteCalls E project region name hello st
    refine ⟨new, h1, ?_⟩
    rw [h2]
    cases (getCloudFunctionsService E project st).1 <;> simp
  | generateFunctionSignedURL project region =>
    obtain ⟨_, _, _, ⟨new, h1, h2⟩⟩ := ops_remoteCalls E project region "" hello st
    refine ⟨new, h1, ?_⟩
    rw [h2]
    cases (getCloudFunctionsService E project st).1 <;> simp

/-- One call to an operation on a state with the client `c` cached. -/
theorem run_cached (E : Env σ) (o : Op) (st : State σ) (c : Service)
    (hc : st.cloudfunctionsService = some c) :
    (o.run E st).cloudfunctionsService = some c ∧
    ∃ new, (o.run E st).trace = new ++ st.trace ∧
      (∀ x ∈ remoteCalls new, x.1 = c) ∧
      enableCount new = (if o.isList then 1 else 0) := by
  have hg := fun project => get_cached E project st c hc
  cases o with
  | regionsFunctionsList project =>
    obtain ⟨new, h1, _, h3⟩ := list_trace E project st
    obtain ⟨h4, h5, h6⟩ := h3 c hc
    refine ⟨h4, new, h1, ?_, ?_⟩
    · intro x hx
      rw [h6 x hx]
    · simp [enableCount, h5, Op.isList]
  | deployFunction project region f =>
    simp only [Op.run, deploy_of_get_ok E project region f st st c (hg project)]
    exact ⟨hc, [_], rfl, by simp [remoteCalls, Event.remoteCall], rfl⟩
  | deleteFunction project region name =>
    simp only [Op.run, delete_of_get_ok E project region name st st c (hg project)]
    exact ⟨hc, [_], rfl, by simp [remoteCalls, Event.remoteCall], rfl⟩
  | getFunction project region name =>
    simp only [Op.run, getFunction_of_get_ok E project region name st st c (hg project)]
    exact ⟨hc, [_], rfl, by simp [remoteCalls, Event.remoteCall], rfl⟩
  | generateFunctionSignedURL project region =>
    simp only [Op.run, signedURL_of_get_ok E project region st st c (hg project)]
    exact ⟨hc, [_], rfl, by simp [remoteCalls, Event.remoteCall], rfl⟩

/-- C3, as the code has it. With the client `c` cached, two further calls to
any two of the five operations, with any arguments, leave `c` cached and
make every call on the client on `c`. `DeployFunction`, `DeleteFunction`,
`GetFunction` and `GenerateFunctionSignedURL` do not call `EnableService`;
each call to `RegionsFunctionsList` calls it exactly once. -/
theorem cached_client_reused (E : Env σ) (o1 o2 : Op) (st : State σ) (c : Service)
    (hc : st.cloudfunctionsService = some c) :
    (o2.run E (o1.run E st)).cloudfunctionsService = some c ∧
    ∃ new, (o2.run E (o1.run E st)).trace = new ++ st.trace ∧
      (∀ x ∈ remoteCalls new, x.1 = c) ∧
      enableCount new = (if o1.isList then 1 else 0) + (if o2.isList then 1 else 0) := by
  obtain ⟨hc1, new1, ht1, hr1, he1⟩ := run_cached E o1 st c hc
  obtain ⟨hc2, new2, ht2, hr2, he2⟩ := run_cached E o2 (o1.run E st) c hc1
  refine ⟨hc2, new2 ++ new1, ?_, ?_, ?_⟩
  · rw [ht2, ht1, List.append_assoc]
  · intro x hx
    simp only [remoteCalls, List.filterMap_append, List.mem_append] at hx
    rcases hx with hx | hx
    · exact hr2 x hx
    · exact hr1 x hx
  · simp only [enableCount, enableCalls, List.filterMap_append, List.length_append] at he1 he2 ⊢
    rw [he1, he2, Nat.add_comm]

/-- An instance: a list call, then a get for another project, on a cached client. -/
theorem cached_client_reused_demo :
    (cached client ()).cloudfunctionsService = some client ∧
    ((Op.run allOk (Op.getFunction "q" "r" "f")
        (Op.run allOk (Op.regionsFunctionsList "p") (cached client ()))).cloudfunctionsService =
      some client ∧
    ∃ new, (Op.run allOk (Op.getFunction "q" "r" "f")
        (Op.run allOk (Op.regionsFunctionsList "p") (cached client ()))).trace =
        new ++ (cached client ()).trace ∧
      (∀ x ∈ remoteCalls new, x.1 = client) ∧
      enableCount new = (if (Op.regionsFunctionsList "p").isList then 1 else 0) +
        (if (Op.getFunction "q" "r" "f").isList then 1 else 0)) :=
  ⟨rfl, cached_client_reused allOk (Op.regionsFunctionsList "p") (Op.getFunction "q" "r" "f")
    (cached client ()) client rfl⟩

/-- C3, as stated, fails. With a client cached and no activation recorded
yet, two calls to `RegionsFunctionsList` call `EnableService` twice. -/
theorem cached_client_still_activates :
    (cached client ()).cloudfunctionsService = some client ∧
    enableCount (cached client ()).trace = 0 ∧
    enableCount (Op.run allOk (Op.regionsFunctionsList "q")
      (Op.run allOk (Op.regionsFunctionsList "p") (cached client ()))).trace = 2 := by
  decide

/-! ## Errors and payloads -/

/-- C6. Each of `DeployFunction`, `DeleteFunction`, `GetFunction` and
`GenerateFunctionSignedURL` returns a nil error exactly when a client was
obtained and its call on the client succeeded. When the remote delete call
fails with `e` (a function that does not exist, say), `DeleteFunction`
returns an error whose text ends with `e`. No operation, of the five, makes
more than one call on the client. -/
theorem nil_error_iff (E : Env σ) (project region name : String) (f : CloudFunction)
    (st : State σ) :
    ((DeployFunction E project region f st).1 = none ↔
      ∃ svc op, (getCloudFunctionsService E project st).1 = Result.ok svc ∧
        (E.FunctionsCreate svc ("projects/" ++ project ++ "/locations/" ++ region) f
          (getCloudFunctionsService E project st).2.remote).1 = Result.ok op) ∧
    ((DeleteFunction E project region name st).1 = none ↔
      ∃ svc op, (getCloudFunctionsService E project st).1 = Result.ok svc ∧
        (E.FunctionsDelete svc
          ("projects/" ++ project ++ "/locations/" ++ region ++ "/functions/" ++ name)
          (getCloudFunctionsService E project st).2.remote).1 = Result.ok op) ∧
    ((GetFunction E project region name st).1.2 = none ↔
      ∃ svc d, (getCloudFunctionsService E project st).1 = Result.ok svc ∧
        (E.FunctionsGet svc
          ("projects/" ++ project ++ "/locations/" ++ region ++ "/functions/" ++ name)
          (getCloudFunctionsService E project st).2.remote).1 = Result.ok d) ∧
    ((GenerateFunctionSignedURL E project region st).1.2 = none ↔
      ∃ svc resp, (getCloudFunctionsService E project st).1 = Result.ok svc ∧
        (E.FunctionsGenerateUploadUrl svc ("projects/" ++ project ++ "/locations/" ++ region)
          { KmsKeyName := "" } (getCloudFunctionsService E project st).2.remote).1 =
          Result.ok resp) ∧
    (∀ svc e, (getCloudFunctionsService E project st).1 = Result.ok svc →
      (E.FunctionsDelete svc
        ("projects/" ++ project ++ "/locations/" ++ region ++ "/functions/" ++ name)
        (getCloudFunctionsService E project st).2.remote).1 = Result.fail e →
      ∃ ctx, (DeleteFunction E project region name st).1 = some (ctx ++ e)) ∧
    (∀ o : Op, ∃ new, (o.run E st).trace = new ++ st.trace ∧ (remoteCalls new).length ≤ 1) := by
  refine ⟨?_, ?_, ?_, ?_, ?_, fun o => run_trace E o st⟩
  all_goals rcases hg : getCloudFunctionsService E project st with ⟨r, st1⟩
  all_goals cases r with
    | fail e0 =>
      simp [deploy_of_get_fail E project region f st st1 e0 hg,
        delete_of_get_fail E project region name st st1 e0 hg,
        getFunction_of_get_fail E project region name st st1 e0 hg,
        signedURL_of_get_fail E project region st st1 e0 hg]
    | ok svc =>
      simp only [deploy_of_get_ok E project region f st st1 svc hg,
        delete_of_get_ok E project region name st st1 svc hg,
        getFunction_of_get_ok E project region name st st1 svc hg,
        signedURL_of_get_ok E project region st st1 svc hg]
      first
        | (constructor
           · intro h
             refine ⟨svc, ?_⟩
             revert h
             generalize (E.FunctionsCreate svc ("projects/" ++ project ++ "/locations/" ++ region)
               f st1.remote).1 = r
             cases r <;> simp
           · rintro ⟨svc0, op, h1, h2⟩
             simp only [Result.ok.injEq] at h1
             subst h1
             rw [h2])
        | (constructor
           · intro h
             refine ⟨svc, ?_⟩
             revert h
             generalize (E.FunctionsDelete svc
               ("projects/" ++ project ++ "/locations/" ++ region ++ "/functions/" ++ name)
               st1.remote).1 = r
             cases r <;> simp
           · rintro ⟨svc0, op, h1, h2⟩
             simp only [Result.ok.injEq] at h1
             subst h1
             rw [h2])
        | (constructor
           · intro h
             refine ⟨svc, ?_⟩
             revert h
             generalize (E.FunctionsGet svc
               ("projects/" ++ project ++ "/locations/" ++ region ++ "/functions/" ++ name)
               st1.remote).1 = r
             cases r <;> simp
           · rintro ⟨svc0, op, h1, h2⟩
             simp only [Result.ok.injEq] at h1
             subst h1
             rw [h2])
        | (constructor
           · intro h
             refine ⟨svc, ?_⟩
             revert h
             generalize (E.FunctionsGenerateUploadUrl svc
               ("projects/" ++ project ++ "/locations/" ++ region) { KmsKeyName := "" }
               st1.remote).1 = r
             cases r <;> simp
           · rintro ⟨svc0, op, h1, h2⟩
             simp only [Result.ok.injEq] at h1
             subst h1
             rw [h2])
        | (intro svc0 e h1 h2
           simp only [Result.ok.injEq] at h1
           subst h1
           rw [h2]
           exact ⟨"could not create function: ", rfl⟩)

/-- An instance: deleting a function the fake backend does not store. -/
theorem nil_error_iff_demo :
    ∃ ctx, (DeleteFunction fakeOk "p" "r" "missing" (initial { functions := [] })).1 =
      some (ctx ++ "not found") :=
  (nil_error_iff fakeOk "p" "r" "missing" hello (initial { functions := [] })).2.2.2.2.1
    { id := 1, UserAgent := "deploystack" } "not found" (by decide) (by decide)
/-- After a failed handle acquisition the last recorded call is not a call
on the client. -/
theorem get_fail_head_remoteCall (E : Env σ) (project : String) (st st1 : State σ)
    (e : GoError) (h : getCloudFunctionsService E project st = (Result.fail e, st1)) :
    ∃ ev, st1.trace.head? = some ev ∧ ev.remoteCall = none := by
  have h3 := get_fail_head E project st e (by rw [h])
  rw [h] at h3
  rcases h3 with ⟨e0, h4, _⟩ | h4
  · exact ⟨_, h4, rfl⟩
  · exact ⟨_, h4, rfl⟩

/-- C5, as the code has it. When the remote call of an operation fails with
`e` (it is then the last call the run records): `DeployFunction` returns
`"could not create function: " ++ e`, `GetFunction` returns
`"could not get function: " ++ e`, `DeleteFunction` returns `e` behind a
non-empty context, and `RegionsFunctionsList` and
`GenerateFunctionSignedURL` return `e` itself, without a context. -/
theorem remote_error_context (E : Env σ) (project region name : String) (f : CloudFunction)
    (st : State σ) (svc : Service) (rn : String) (g : CloudFunction)
    (req : GenerateUploadUrlRequest) (e : GoError) :
    ((DeployFunction E project region f st).2.trace.head? =
        some (Event.functionsCreate svc rn g (Result.fail e)) →
      (DeployFunction E project region f st).1 = some ("could not create function: " ++ e)) ∧
    ((GetFunction E project region name st).2.trace.head? =
        some (Event.functionsGet svc rn (Result.fail e)) →
      (GetFunction E project region name st).1 =
        (none, some ("could not get function: " ++ e))) ∧
    ((DeleteFunction E project region name st).2.trace.head? =
        some (Event.functionsDelete svc rn (Result.fail e)) →
      ∃ ctx, ctx ≠ "" ∧ (DeleteFunction E project region name st).1 = some (ctx ++ e)) ∧
    ((GenerateFunctionSignedURL E project region st).2.trace.head? =
        some (Event.functionsGenerateUploadUrl svc rn req (Result.fail e)) →
      (GenerateFunctionSignedURL E project region st).1 = ("", some e)) ∧
    ((RegionsFunctionsList E project st).2.trace.head? =
        some (Event.locationsList svc rn (Result.fail e)) →
      (RegionsFunctionsList E project st).1 = (some [], some e)) := by
  have hlist : (RegionsFunctionsList E project st).2.trace.head? =
        some (Event.locationsList svc rn (Result.fail e)) →
      (RegionsFunctionsList E project st).1 = (some [], some e) := by
    intro h
    rcases h1 : E.EnableService project "cloudfunctions.googleapis.com" st.remote with ⟨r1, s1⟩
    cases r1 with
    | some e1 =>
      rw [list_enable_fail E project st e1 s1 h1] at h
      simp at h
    | none =>
      rcases h2 : getCloudFunctionsService E project
        { st with remote := s1,
                  trace := Event.enableService project "cloudfunctions.googleapis.com" none ::
                    st.trace } with ⟨r2, st2⟩
      cases r2 with
      | fail e2 =>
        rw [list_get_fail E project st st2 e2 s1 h1 h2] at h
        obtain ⟨ev, h3, h4⟩ := get_fail_head_remoteCall E project _ st2 e2 h2
        rw [h3] at h
        simp only [Option.some.injEq] at h
        rw [h] at h4
        simp [Event.remoteCall] at h4
      | ok got =>
        rw [list_get_ok E project st st2 got s1 h1 h2] at h ⊢
        simp only [List.head?_cons, Option.some.injEq, Event.locationsList.injEq] at h
        rw [h.2.2]
  refine ⟨?_, ?_, ?_, ?_, hlist⟩
  all_goals rcases hg : getCloudFunctionsService E project st with ⟨r, st1⟩
  all_goals cases r with
    | fail e0 =>
      obtain ⟨ev, h3, h4⟩ := get_fail_head_remoteCall E project st st1 e0 hg
      simp only [deploy_of_get_fail E project region f st st1 e0 hg,
        delete_of_get_fail E project region name st st1 e0 hg,
        getFunction_of_get_fail E project region name st st1 e0 hg,
        signedURL_of_get_fail E project region st st1 e0 hg]
      intro h
      rw [h3] at h
      simp only [Option.some.injEq] at h
      rw [h] at h4
      simp [Event.remoteCall] at h4
    | ok got =>
      simp only [deploy_of_get_ok E project region f st st1 got hg,
        delete_of_get_ok E project region name st st1 got hg,
        getFunction_of_get_ok E project region name st st1 got hg,
        signedURL_of_get_ok E project region st st1 got hg]
      intro h
      first
        | (simp only [List.head?_cons, Option.some.injEq, Event.functionsCreate.injEq] at h
           rw [h.2.2.2])
        | (simp only [List.head?_cons, Option.some.injEq, Event.functionsGet.injEq] at h
           rw [h.2.2])
        | (simp only [List.head?_cons, Option.some.injEq, Event.functionsDelete.injEq] at h
           rw [h.2.2]
           exact ⟨"could not create function: ", by decide, rfl⟩)
        | (simp only [List.head?_cons, Option.some.injEq,
             Event.functionsGenerateUploadUrl.injEq] at h
           rw [h.2.2.2])

/-- Instances: every remote call fails with `boom`. -/
theorem remote_error_context_demo :
    (DeployFunction remoteFails "p" "r" hello (initial ())).1 =
      some ("could not create function: " ++ "boom") ∧
    (GetFunction remoteFails "p" "r" "f" (initial ())).1 =
      (none, some ("could not get function: " ++ "boom")) ∧
    (∃ ctx, ctx ≠ "" ∧
      (DeleteFunction remoteFails "p" "r" "f" (initial ())).1 = some (ctx ++ "boom")) ∧
    (GenerateFunctionSignedURL remoteFails "p" "r" (initial ())).1 = ("", some "boom") ∧
    (RegionsFunctionsList remoteFails "p" (initial ())).1 = (some [], some "boom") :=
  ⟨(remote_error_context remoteFails "p" "r" "f" hello (initial ())
      { id := 1, UserAgent := "deploystack" } "projects/p/locations/r" hello
      { KmsKeyName := "" } "boom").1 (by decide),
   (remote_error_context remoteFails "p" "r" "f" hello (initial ())
      { id := 1, UserAgent := "deploystack" } "projects/p/locations/r/functions/f" hello
      { KmsKeyName := "" } "boom").2.1 (by decide),
   (remote_error_context remoteFails "p" "r" "f" hello (initial ())
      { id := 1, UserAgent := "deploystack" } "projects/p/locations/r/functions/f" hello
      { KmsKeyName := "" } "boom").2.2.1 (by decide),
   (remote_error_context remoteFails "p" "r" "f" hello (initial ())
      { id := 1, UserAgent := "deploystack" } "projects/p/locations/r" hello
      { KmsKeyName := "" } "boom").2.2.2.1 (by decide),
   (remote_error_context remoteFails "p" "r" "f" hello (initial ())
      { id := 1, UserAgent := "deploystack" } "projects/p" hello
      { KmsKeyName := "" } "boom").2.2.2.2 (by decide)⟩

/-- C5, as stated, fails. With every remote call failing with `boom`:
`RegionsFunctionsList` and `GenerateFunctionSignedURL` return the bare
`boom`, and `DeleteFunction` returns `could not create function: boom`,
which names the creation. -/
theorem remote_error_bare :
    (RegionsFunctionsList remoteFails "p" (initial ())).1.2 = some "boom" ∧
    (GenerateFunctionSignedURL remoteFails "p" "r" (initial ())).1.2 = some "boom" ∧
    (DeleteFunction remoteFails "p" "r" "f" (initial ())).1 =
      some "could not create function: boom" ∧
    (DeleteFunction remoteFails "p" "r" "f" (initial ())).2.trace.head? =
      some (Event.functionsDelete { id := 1, UserAgent := "deploystack" }
        "projects/p/locations/r/functions/f" (Result.fail "boom")) := by
  decide

theorem remoteCall_none_of_mem (pre : List Event) (ev : Event) (hrc : remoteCalls pre = [])
    (h : ev ∈ pre) : ev.remoteCall = none := by
  cases hev : ev.remoteCall with
  | none => rfl
  | some x =>
    have hx : x ∈ remoteCalls pre := List.mem_filterMap.mpr ⟨ev, h, hev⟩
    rw [hrc] at hx
    simp at hx

theorem payload_trace (E : Env σ) (project region name : String) (f : CloudFunction)
    (st : State σ) :
    ((GetFunction E project region name st).1.2 = none →
      ∃ svc d, (GetFunction E project region name st).2.trace.head? =
        some (Event.functionsGet svc
          ("projects/" ++ project ++ "/locations/" ++ region ++ "/functions/" ++ name)
          (Result.ok d))) ∧
    (∀ svc rn d, (GetFunction E project region name st).2.trace.head? =
        some (Event.functionsGet svc rn (Result.ok d)) →
      (GetFunction E project region name st).1 = (some d, none)) ∧
    ((GenerateFunctionSignedURL E project region st).1.2 = none →
      ∃ svc resp, (GenerateFunctionSignedURL E project region st).2.trace.head? =
        some (Event.functionsGenerateUploadUrl svc
          ("projects/" ++ project ++ "/locations/" ++ region) { KmsKeyName := "" }
          (Result.ok resp))) ∧
    (∀ svc rn req resp, (GenerateFunctionSignedURL E project region st).2.trace.head? =
        some (Event.functionsGenerateUploadUrl svc rn req (Result.ok resp)) →
      req = { KmsKeyName := "" } ∧
      (GenerateFunctionSignedURL E project region st).1 = (resp.UploadUrl, none)) ∧
    (∃ new, (DeployFunction E project region f st).2.trace = new ++ st.trace ∧
      (∀ svc rn g res, Event.functionsCreate svc rn g res ∈ new → g = f) ∧
      (∀ svc, (getCloudFunctionsService E project st).1 = Result.ok svc →
        ∃ res, new.head? = some (Event.functionsCreate svc
          ("projects/" ++ project ++ "/locations/" ++ region) f res))) := by
  obtain ⟨pre, hpre, hrc, _, _⟩ := get_trace E project st
  rcases hg : getCloudFunctionsService E project st with ⟨r, st1⟩
  rw [hg] at hpre
  dsimp only at hpre
  cases r with
  | fail e0 =>
    obtain ⟨ev, h3, h4⟩ := get_fail_head_remoteCall E project st st1 e0 hg
    rw [deploy_of_get_fail E project region f st st1 e0 hg,
      getFunction_of_get_fail E project region name st st1 e0 hg,
      signedURL_of_get_fail E project region st st1 e0 hg]
    refine ⟨by simp, ?_, by simp, ?_, pre, hpre, ?_, by simp⟩
    · intro svc rn d h
      rw [h3] at h
      simp only [Option.some.injEq] at h
      rw [h] at h4
      simp [Event.remoteCall] at h4
    · intro svc rn req resp h
      rw [h3] at h
      simp only [Option.some.injEq] at h
      rw [h] at h4
      simp [Event.remoteCall] at h4
    · intro svc rn g res hmem
      have := remoteCall_none_of_mem pre _ hrc hmem
      simp [Event.remoteCall] at this
  | ok got =>
    rw [deploy_of_get_ok E project region f st st1 got hg,
      getFunction_of_get_ok E project region name st st1 got hg,
      signedURL_of_get_ok E project region st st1 got hg]
    refine ⟨?_, ?_, ?_, ?_,
      Event.functionsCreate got ("projects/" ++ project ++ "/locations/" ++ region) f
        (E.FunctionsCreate got ("projects/" ++ project ++ "/locations/" ++ region) f
          st1.remote).1 :: pre, ?_, ?_, ?_⟩
    · dsimp only
      generalize (E.FunctionsGet got
        ("projects/" ++ project ++ "/locations/" ++ region ++ "/functions/" ++ name)
        st1.remote).1 = r
      cases r with
      | fail e => simp
      | ok d =>
        intro _
        exact ⟨got, d, rfl⟩
    · intro svc rn d h
      simp only [List.head?_cons, Option.some.injEq, Event.functionsGet.injEq] at h
      rw [h.2.2]
    · dsimp only
      generalize (E.FunctionsGenerateUploadUrl got
        ("projects/" ++ project ++ "/locations/" ++ region) { KmsKeyName := "" }
        st1.remote).1 = r
      cases r with
      | fail e => simp
      | ok resp =>
        intro _
        exact ⟨got, resp, rfl⟩
    · intro svc rn req resp h
      simp only [List.head?_cons, Option.some.injEq,
        Event.functionsGenerateUploadUrl.injEq] at h
      rw [h.2.2.2]
      exact ⟨h.2.2.1.symm, rfl⟩
    · dsimp only
      rw [hpre]
      rfl
    · intro svc rn g res hmem
      rcases List.mem_cons.mp hmem with h | h
      · simp only [Event.functionsCreate.injEq] at h
        exact h.2.2.1
      · have := remoteCall_none_of_mem pre _ hrc h
        simp [Event.remoteCall] at this
    · intro svc hs
      simp only [Result.ok.injEq] at hs
      subst hs
      exact ⟨_, rfl⟩

/-- C7. The payloads pass through unchanged. When `GetFunction` returns a nil
error, its last recorded call is the remote get, which answered with a
descriptor `d`, and whenever the remote get answers `d` the function returns
exactly `d`. When `GenerateFunctionSignedURL` returns a nil error, its last
recorded call is the remote call with the empty request, and whenever that
call answers `resp` the function returns exactly `resp.UploadUrl`. Every
create call `DeployFunction` records carries the descriptor `f` it was
given, and it records one whenever a client could be obtained. These calls
are the environment's: with a client `svc` obtained, `DeployFunction` leaves
the remote side as the environment's create call leaves it when applied to
`svc`, the location and `f`, and records that call's answer; `GetFunction`
returns the descriptor the environment's get call answers; and
`GenerateFunctionSignedURL` returns the `UploadUrl` the environment's call
answers to the empty request. -/
theorem payload_passthrough (E : Env σ) (project region name : String) (f : CloudFunction)
    (st : State σ) :
    ((GetFunction E project region name st).1.2 = none →
      ∃ svc d, (GetFunction E project region name st).2.trace.head? =
        some (Event.functionsGet svc
          ("projects/" ++ project ++ "/locations/" ++ region ++ "/functions/" ++ name)
          (Result.ok d))) ∧
    (∀ svc rn d, (GetFunction E project region name st).2.trace.head? =
        some (Event.functionsGet svc rn (Result.ok d)) →
      (GetFunction E project region name st).1 = (some d, none)) ∧
    ((GenerateFunctionSignedURL E project region st).1.2 = none →
      ∃ svc resp, (GenerateFunctionSignedURL E project region st).2.trace.head? =
        some (Event.functionsGenerateUploadUrl svc
          ("projects/" ++ project ++ "/locations/" ++ region) { KmsKeyName := "" }
          (Result.ok resp))) ∧
    (∀ svc rn req resp, (GenerateFunctionSignedURL E project region st).2.trace.head? =
        some (Event.functionsGenerateUploadUrl svc rn req (Result.ok resp)) →
      req = { KmsKeyName := "" } ∧
      (GenerateFunctionSignedURL E project region st).1 = (resp.UploadUrl, none)) ∧
    (∃ new, (DeployFunction E project region f st).2.trace = new ++ st.trace ∧
      (∀ svc rn g res, Event.functionsCreate svc rn g res ∈ new → g = f) ∧
      (∀ svc, (getCloudFunctionsService E project st).1 = Result.ok svc →
        ∃ res, new.head? = some (Event.functionsCreate svc
          ("projects/" ++ project ++ "/locations/" ++ region) f res))) ∧
    (∀ svc, (getCloudFunctionsService E project st).1 = Result.ok svc →
      (DeployFunction E project region f st).2.remote =
        (E.FunctionsCreate svc ("projects/" ++ project ++ "/locations/" ++ region) f
          (getCloudFunctionsService E project st).2.remote).2 ∧
      (DeployFunction E project region f st).2.trace =
        Event.functionsCreate svc ("projects/" ++ project ++ "/locations/" ++ region) f
          (E.FunctionsCreate svc ("projects/" ++ project ++ "/locations/" ++ region) f
            (getCloudFunctionsService E project st).2.remote).1 ::
          (getCloudFunctionsService E project st).2.trace) ∧
    (∀ svc d, (getCloudFunctionsService E project st).1 = Result.ok svc →
      (E.FunctionsGet svc
        ("projects/" ++ project ++ "/locations/" ++ region ++ "/functions/" ++ name)
        (getCloudFunctionsService E project st).2.remote).1 = Result.ok d →
      (GetFunction E project region name st).1 = (some d, none)) ∧
    (∀ svc resp, (getCloudFunctionsService E project st).1 = Result.ok svc →
      (E.FunctionsGenerateUploadUrl svc ("projects/" ++ project ++ "/locations/" ++ region)
        { KmsKeyName := "" } (getCloudFunctionsService E project st).2.remote).1 = Result.ok resp →
      (GenerateFunctionSignedURL E project region st).1 = (resp.UploadUrl, none)) := by
  refine ⟨(payload_trace E project region name f st).1,
    (payload_trace E project region name f st).2.1,
    (payload_trace E project region name f st).2.2.1,
    (payload_trace E project region name f st).2.2.2.1,
    (payload_trace E project region name f st).2.2.2.2, ?_⟩
  rcases hg : getCloudFunctionsService E project st with ⟨r, st1⟩
  cases r with
  | fail e0 =>
    refine ⟨?_, ?_, ?_⟩
    · intro svc hs
      simp at hs
    · intro svc d hs
      simp at hs
    · intro svc resp hs
      simp at hs
  | ok got =>
    rw [deploy_of_get_ok E project region f st st1 got hg,
      getFunction_of_get_ok E project region name st st1 got hg,
      signedURL_of_get_ok E project region st st1 got hg]
    refine ⟨?_, ?_, ?_⟩
    · intro svc hs
      simp only [Result.ok.injEq] at hs
      subst hs
      exact ⟨rfl, rfl⟩
    · intro svc d hs hd
      simp only [Result.ok.injEq] at hs
      subst hs
      dsimp only at hd ⊢
      rw [hd]
    · intro svc resp hs hr
      simp only [Result.ok.injEq] at hs
      subst hs
      dsimp only at hr ⊢
      rw [hr]

/-- Instances: the descriptor, the upload URL and the create call in the
environment where everything succeeds, and the fake backend after
`DeployFunction`, which stores the descriptor it was given. -/
theorem payload_passthrough_demo :
    (GetFunction allOk "p" "r" "f" (initial ())).1 = (some hello, none) ∧
    (GenerateFunctionSignedURL allOk "p" "r" (initial ())).1 = ("https://signed", none) ∧
    (∃ res, (DeployFunction allOk "p" "r" hello (initial ())).2.trace.head? =
      some (Event.functionsCreate { id := 1, UserAgent := "deploystack" }
        ("projects/" ++ "p" ++ "/locations/" ++ "r") hello res)) ∧
    (DeployFunction fakeOk "p" "r" hello (initial { functions := [] })).2.remote =
      (fakeOk.FunctionsCreate { id := 1, UserAgent := "deploystack" } "projects/p/locations/r"
        hello { functions := [] }).2 ∧
    (fakeOk.FunctionsCreate { id := 1, UserAgent := "deploystack" } "projects/p/locations/r"
        hello { functions := [] }).2.functions = [("projects/p/locations/r", hello)] :=
  ⟨(payload_passthrough allOk "p" "r" "f" hello (initial ())).2.1
      { id := 1, UserAgent := "deploystack" } "projects/p/locations/r/functions/f" hello
      (by decide),
   ((payload_passthrough allOk "p" "r" "f" hello (initial ())).2.2.2.1
      { id := 1, UserAgent := "deploystack" } "projects/p/locations/r" { KmsKeyName := "" }
      { UploadUrl := "https://signed" } (by decide)).2,
   by
     obtain ⟨new, h1, _, h3⟩ :=
       (payload_passthrough allOk "p" "r" "f" hello (initial ())).2.2.2.2.1
     obtain ⟨res, h4⟩ := h3 { id := 1, UserAgent := "deploystack" } (by decide)
     have e : (initial ()).trace = [] := rfl
     rw [e, List.append_nil] at h1
     exact ⟨res, by rw [h1]; exact h4⟩,
   ((payload_passthrough fakeOk "p" "r" "f" hello (initial { functions := [] })).2.2.2.2.2.1
      { id := 1, UserAgent := "deploystack" } rfl).1,
   by decide⟩

/-! ## Deploy, then get, against the fake backend -/

theorem answers_self (location name : String) (d : CloudFunction)
    (hname : d.Name = location ++ "/functions/" ++ name) :
    FakeRemote.answers (location ++ "/functions/" ++ name) (location, d) = true := by
  unfold FakeRemote.answers
  simp only [Bool.and_eq_true, beq_iff_eq]
  refine ⟨?_, hname⟩
  rw [ List.isPrefixOf_iff_prefix]
  simp only [String.data_append]
  exact List.prefix_append _ _

/-- C8. Against the fake backend (whatever activation, client construction,
listing and upload URLs do, and whatever it already stores): when
`DeployFunction(project, region, d)` succeeds for a descriptor `d` named
`projects/<project>/locations/<region>/functions/<name>`, the call
`GetFunction(project, region, name)` that follows succeeds and returns `d`. -/
theorem deploy_then_get (ua : String) (en : String → String → Option GoError)
    (mk : Result Service) (ls : Result ListLocationsResponse)
    (up : Result GenerateUploadUrlResponse) (project region name : String)
    (d : CloudFunction) (st : State FakeRemote)
    (hname : d.Name =
      "projects/" ++ project ++ "/locations/" ++ region ++ "/functions/" ++ name)
    (hdep : (DeployFunction (fake ua en mk ls up) project region d st).1 = none) :
    (GetFunction (fake ua en mk ls up) project region name
      (DeployFunction (fake ua en mk ls up) project region d st).2).1 = (some d, none) := by
  rcases hg : getCloudFunctionsService (fake ua en mk ls up) project st with ⟨r, st1⟩
  cases r with
  | fail e =>
    rw [deploy_of_get_fail _ project region d st st1 e hg] at hdep
    simp at hdep
  | ok svc =>
    have hk := get_ok_cache (fake ua en mk ls up) project st svc (by rw [hg])
    rw [hg] at hk
    dsimp only at hk
    rw [deploy_of_get_ok _ project region d st st1 svc hg] at hdep ⊢
    dsimp only at hdep ⊢
    by_cases hdup : st1.remote.functions.any
        (fun e => e.1 == "projects/" ++ project ++ "/locations/" ++ region && e.2.Name == d.Name)
          = true
    · simp [fake, hdup] at hdep
    · have hcr : (fake ua en mk ls up).FunctionsCreate svc
          ("projects/" ++ project ++ "/locations/" ++ region) d st1.remote =
          (Result.ok { Name := "operations/create", Done := false },
            { functions := ("projects/" ++ project ++ "/locations/" ++ region, d) ::
                st1.remote.functions }) := by
        simp only [fake]
        rw [if_neg hdup]
      rw [hcr]
      dsimp only
      rw [getFunction_of_get_ok (fake ua en mk ls up) project region name _ _ svc
        (get_cached (fake ua en mk ls up) project
          { cloudfunctionsService := st1.cloudfunctionsService,
            remote := { functions := ("projects/" ++ project ++ "/locations/" ++ region, d) ::
              st1.remote.functions },
            trace := Event.functionsCreate svc
              ("projects/" ++ project ++ "/locations/" ++ region) d
              (Result.ok { Name := "operations/create", Done := false }) :: st1.trace }
          svc hk)]
      have hans := answers_self ("projects/" ++ project ++ "/locations/" ++ region) name d hname
      simp [fake, FakeRemote.lookup, List.find?_cons, hans]

/-- An instance: deploy `hello` on the empty fake backend, then get it. -/
theorem deploy_then_get_demo :
    hello.Name = "projects/" ++ "p" ++ "/locations/" ++ "r" ++ "/functions/" ++ "f" ∧
    (DeployFunction (fake "deploystack" (fun _ _ => none) (Result.ok client)
      (Result.fail "boom") (Result.fail "boom")) "p" "r" hello
        (initial { functions := [] })).1 = none ∧
    (GetFunction (fake "deploystack" (fun _ _ => none) (Result.ok client)
        (Result.fail "boom") (Result.fail "boom")) "p" "r" "f"
      (DeployFunction (fake "deploystack" (fun _ _ => none) (Result.ok client)
        (Result.fail "boom") (Result.fail "boom")) "p" "r" hello
          (initial { functions := [] })).2).1 = (some hello, none) :=
  ⟨by decide, by decide,
   deploy_then_get "deploystack" (fun _ _ => none) (Result.ok client)
     (Result.fail "boom") (Result.fail "boom") "p" "r" "f" hello
     (initial { functions := [] }) (by decide) (by decide)⟩

end Deploystack
